import Mathlib

/-!
Verification of the multi-pass image-analysis core of Project-EYE
(src/python-ai): the structured-text extractor
(main_multimedia.extract_json_from_response), the result merger
(comprehensive_analyzer._combine_results), the pass executor
(comprehensive_analyzer._run_single_pass), the orchestrator
(comprehensive_analyzer.analyze) and the prompt utilities (prompts.py),
shallowly embedded as executable Lean functions.

Conventions of the embedding:
* Python dicts are association lists (List (String × Json)); Python dict
  equality ignores key order, so claims are stated via key lookup.
* Python None is Option.none; a Python function that may raise is embedded
  as Except String; the error string stands for the exception type/message.
* json.loads is embedded as a strict recursive-descent JSON parser
  (pyJsonLoads) over the character list.  Numbers are modelled as decimal
  pairs mantissa * 10 ^ exponent (Dec), compared structurally; the parse
  of a numeral is canonical, Python's int/float distinction plays no role
  in any claim, and no claim compares differently written numerals.
  NaN/Infinity literals, which json.loads also accepts, are not modelled.
* Wall-clock durations and logging are dropped; where the spec talks about
  attempts, the embedding counts backend invocations explicitly.
-/

/-- Characters that are special to the brace scanner, written via their
code points so they never appear literally in the file. -/
def lbraceC : Char := Char.ofNat 123

def rbraceC : Char := Char.ofNat 125

def dquoteC : Char := Char.ofNat 34

def bslashC : Char := Char.ofNat 92

def lbrackC : Char := Char.ofNat 91

def rbrackC : Char := Char.ofNat 93

/-- A decimal number mantissa * 10 ^ exp, the canonical result of parsing
a JSON numeral. -/
structure Dec where
  mant : Int
  exp : Int
deriving DecidableEq

/-- JSON-compatible values, the shapes json.loads can produce.
Objects keep insertion order like Python dicts. -/
inductive Json where
  | null : Json
  | bool : Bool → Json
  | num : Dec → Json
  | str : String → Json
  | arr : List Json → Json
  | obj : List (String × Json) → Json

mutual

def Json.beq : Json → Json → Bool
  | Json.null, Json.null => true
  | Json.bool a, Json.bool b => a = b
  | Json.num a, Json.num b => a = b
  | Json.str a, Json.str b => a = b
  | Json.arr a, Json.arr b => Json.beqL a b
  | Json.obj a, Json.obj b => Json.beqO a b
  | _, _ => false

def Json.beqL : List Json → List Json → Bool
  | [], [] => true
  | a :: as, b :: bs => Json.beq a b && Json.beqL as bs
  | _, _ => false

def Json.beqO : List (String × Json) → List (String × Json) → Bool
  | [], [] => true
  | (k, a) :: as, (l, b) :: bs => k = l && Json.beq a b && Json.beqO as bs
  | _, _ => false

end

mutual

theorem Json.beq_iff : ∀ a b : Json, Json.beq a b = true ↔ a = b
  | Json.null, Json.null => by simp [Json.beq]
  | Json.bool a, Json.bool b => by simp [Json.beq]
  | Json.num a, Json.num b => by simp [Json.beq]
  | Json.str a, Json.str b => by simp [Json.beq]
  | Json.arr a, Json.arr b => by simp [Json.beq, Json.beqL_iff a b]
  | Json.obj a, Json.obj b => by simp [Json.beq, Json.beqO_iff a b]
  | Json.null, Json.bool _ => by simp [Json.beq]
  | Json.null, Json.num _ => by simp [Json.beq]
  | Json.null, Json.str _ => by simp [Json.beq]
  | Json.null, Json.arr _ => by simp [Json.beq]
  | Json.null, Json.obj _ => by simp [Json.beq]
  | Json.bool _, Json.null => by simp [Json.beq]
  | Json.bool _, Json.num _ => by simp [Json.beq]
  | Json.bool _, Json.str _ => by simp [Json.beq]
  | Json.bool _, Json.arr _ => by simp [Json.beq]
  | Json.bool _, Json.obj _ => by simp [Json.beq]
  | Json.num _, Json.null => by simp [Json.beq]
  | Json.num _, Json.bool _ => by simp [Json.beq]
  | Json.num _, Json.str _ => by simp [Json.beq]
  | Json.num _, Json.arr _ => by simp [Json.beq]
  | Json.num _, Json.obj _ => by simp [Json.beq]
  | Json.str _, Json.null => by simp [Json.beq]
  | Json.str _, Json.bool _ => by simp [Json.beq]
  | Json.str _, Json.num _ => by simp [Json.beq]
  | Json.str _, Json.arr _ => by simp [Json.beq]
  | Json.str _, Json.obj _ => by simp [Json.beq]
  | Json.arr _, Json.null => by simp [Json.beq]
  | Json.arr _, Json.bool _ => by simp [Json.beq]
  | Json.arr _, Json.num _ => by simp [Json.beq]
  | Json.arr _, Json.str _ => by simp [Json.beq]
  | Json.arr _, Json.obj _ => by simp [Json.beq]
  | Json.obj _, Json.null => by simp [Json.beq]
  | Json.obj _, Json.bool _ => by simp [Json.beq]
  | Json.obj _, Json.num _ => by simp [Json.beq]
  | Json.obj _, Json.str _ => by simp [Json.beq]
  | Json.obj _, Json.arr _ => by simp [Json.beq]

theorem Json.beqL_iff : ∀ a b : List Json, Json.beqL a b = true ↔ a = b
  | [], [] => by simp [Json.beqL]
  | a :: as, b :: bs => by simp [Json.beqL, Json.beq_iff a b, Json.beqL_iff as bs]
  | [], _ :: _ => by simp [Json.beqL]
  | _ :: _, [] => by simp [Json.beqL]

theorem Json.beqO_iff : ∀ a b : List (String × Json), Json.beqO a b = true ↔ a = b
  | [], [] => by simp [Json.beqO]
  | (k, a) :: as, (l, b) :: bs => by
      simp [Json.beqO, Json.beq_iff a b, Json.beqO_iff as bs, Prod.ext_iff, and_assoc]
  | [], _ :: _ => by simp [Json.beqO]
  | _ :: _, [] => by simp [Json.beqO]

end

instance : DecidableEq Json := fun a b => decidable_of_iff (Json.beq a b = true) (Json.beq_iff a b)

instance {ε α : Type} [DecidableEq ε] [DecidableEq α] : DecidableEq (Except ε α)
  | Except.ok x, Except.ok y =>
      if h : x = y then isTrue (by rw [h])
      else isFalse (fun hc => h (Except.ok.inj hc))
  | Except.error x, Except.error y =>
      if h : x = y then isTrue (by rw [h])
      else isFalse (fun hc => h (Except.error.inj hc))
  | Except.ok _, Except.error _ => isFalse (fun hc => Except.noConfusion hc)
  | Except.error _, Except.ok _ => isFalse (fun hc => Except.noConfusion hc)

/-- A JSON integer n (mantissa n, exponent 0): the canonical parse of an
integer numeral and the embedding of Python int/float literals in the
source (5 and 5.0 coincide here; no claim distinguishes them). -/
def Json.int (n : Int) : Json := Json.num ⟨n, 0⟩

/-- Python truthiness (bool(x)) on JSON-compatible values. -/
def pyTruthy : Json → Bool
  | Json.null => false
  | Json.bool b => b
  | Json.num d => decide (d.mant ≠ 0)
  | Json.str s => decide (s ≠ "")
  | Json.arr l => decide (l ≠ [])
  | Json.obj l => decide (l ≠ [])

/-- Lookup in a Python dict (association list); first binding wins. -/
def dictGet : List (String × Json) → String → Option Json
  | [], _ => none
  | (k, v) :: rest, key => if k = key then some v else dictGet rest key

/-- d.get(key, default). -/
def dictGetD (d : List (String × Json)) (key : String) (dflt : Json) : Json :=
  (dictGet d key).getD dflt

/-- Python whitespace, the set str.strip removes. -/
def isPyWs (c : Char) : Bool :=
  c = ' ' ∨ c = Char.ofNat 9 ∨ c = Char.ofNat 10 ∨ c = Char.ofNat 13 ∨
  c = Char.ofNat 11 ∨ c = Char.ofNat 12

/-- text.strip() on a character list. -/
def pyStrip (cs : List Char) : List Char :=
  ((cs.dropWhile isPyWs).reverse.dropWhile isPyWs).reverse

/-- JSON whitespace as accepted by json.loads between tokens. -/
def isJsonWs (c : Char) : Bool :=
  c = ' ' ∨ c = Char.ofNat 9 ∨ c = Char.ofNat 10 ∨ c = Char.ofNat 13

def skipWs (cs : List Char) : List Char := cs.dropWhile isJsonWs

def isHexDigitC (c : Char) : Bool :=
  c.isDigit ∨ ('a' ≤ c ∧ c ≤ 'f') ∨ ('A' ≤ c ∧ c ≤ 'F')

/-- Numeric value of a hexadecimal digit. -/
def hexVal (c : Char) : Nat :=
  if c.isDigit then c.toNat - 48
  else if 'a' ≤ c ∧ c ≤ 'f' then c.toNat - 87
  else if 'A' ≤ c ∧ c ≤ 'F' then c.toNat - 55
  else 0

/-- Decode the body of a JSON string literal (the part after the opening
quote), consuming through the closing quote.  Returns the decoded
characters and the rest of the input.  Mirrors json.loads strict mode:
raw control characters and unknown escapes are rejected.  A \uXXXX escape
becomes the character with that code point (surrogate pairs, which Python
combines, are out of scope of every claim). -/
def parseStrChars : List Char → Option (List Char × List Char)
  | [] => none
  | c :: cs =>
    if c = dquoteC then some ([], cs)
    else if c = bslashC then
      match cs with
      | [] => none
      | e :: cs2 =>
        if e = dquoteC then (parseStrChars cs2).map (fun p => (dquoteC :: p.1, p.2))
        else if e = bslashC then (parseStrChars cs2).map (fun p => (bslashC :: p.1, p.2))
        else if e = '/' then (parseStrChars cs2).map (fun p => ('/' :: p.1, p.2))
        else if e = 'b' then (parseStrChars cs2).map (fun p => (Char.ofNat 8 :: p.1, p.2))
        else if e = 'f' then (parseStrChars cs2).map (fun p => (Char.ofNat 12 :: p.1, p.2))
        else if e = 'n' then (parseStrChars cs2).map (fun p => (Char.ofNat 10 :: p.1, p.2))
        else if e = 'r' then (parseStrChars cs2).map (fun p => (Char.ofNat 13 :: p.1, p.2))
        else if e = 't' then (parseStrChars cs2).map (fun p => (Char.ofNat 9 :: p.1, p.2))
        else if e = 'u' then
          match cs2 with
          | h1 :: h2 :: h3 :: h4 :: cs3 =>
            if isHexDigitC h1 ∧ isHexDigitC h2 ∧ isHexDigitC h3 ∧ isHexDigitC h4 then
              let code := 4096 * hexVal h1 + 256 * hexVal h2 + 16 * hexVal h3 + hexVal h4
              (parseStrChars cs3).map (fun p => (Char.ofNat code :: p.1, p.2))
            else none
          | _ => none
        else none
    else if 32 ≤ c.toNat then (parseStrChars cs).map (fun p => (c :: p.1, p.2))
    else none

/-- Characters the number regex of json.loads can consume. -/
def numChar (c : Char) : Bool :=
  c.isDigit ∨ c = '-' ∨ c = '+' ∨ c = '.' ∨ c = 'e' ∨ c = 'E'

def digitsToNat (ds : List Char) : Nat :=
  ds.foldl (fun acc c => 10 * acc + (c.toNat - 48)) 0

/-- Parse a complete lexed number token following the shape of json.loads'
NUMBER_RE: `-?(0|[1-9][0-9]*)(\.[0-9]+)?([eE][-+]?[0-9]+)?`, requiring the
whole token to be consumed.  Python produces int or float; both are
modelled as Dec (no claim distinguishes them). -/
def decOfTok (tok : List Char) : Option Dec :=
  let p := match tok with
    | c :: r => if c = '-' then (true, r) else (false, tok)
    | [] => (false, tok)
  match p.2 with
  | [] => none
  | c :: r =>
    if ¬ c.isDigit then none
    else
      let ipr := if c = '0' then (([c] : List Char), r)
        else (c :: r.takeWhile Char.isDigit, r.dropWhile Char.isDigit)
      let fpr : List Char × List Char := match ipr.2 with
        | d :: r2 =>
          if d = '.' ∧ (r2.takeWhile Char.isDigit) ≠ [] then
            (r2.takeWhile Char.isDigit, r2.dropWhile Char.isDigit)
          else ([], ipr.2)
        | [] => ([], ipr.2)
      let epr : Bool × List Char × List Char := match fpr.2 with
        | e :: r3 =>
          if e = 'e' ∨ e = 'E' then
            match r3 with
            | s :: r4 =>
              if s = '+' ∨ s = '-' then
                if (r4.takeWhile Char.isDigit) ≠ [] then
                  (s = '-', r4.takeWhile Char.isDigit, r4.dropWhile Char.isDigit)
                else (false, [], fpr.2)
              else
                if (r3.takeWhile Char.isDigit) ≠ [] then
                  (false, r3.takeWhile Char.isDigit, r3.dropWhile Char.isDigit)
                else (false, [], fpr.2)
            | [] => (false, [], fpr.2)
          else (false, [], fpr.2)
        | [] => (false, [], fpr.2)
      if epr.2.2 ≠ [] then none
      else
        let mant : Int := (digitsToNat (ipr.1 ++ fpr.1) : Nat)
        let esigned : Int :=
          if epr.1 then -(digitsToNat epr.2.1 : Int) else (digitsToNat epr.2.1 : Int)
        some ⟨if p.1 then -mant else mant, esigned - (fpr.1.length : Int)⟩

/-- Number parsing at a value position: lex the maximal run of number
characters, then parse that token completely.  Equivalent to json.loads'
regex match followed by its end-of-token checks: whenever the regex match
were shorter than the lexed run, the character after the match would make
json.loads fail anyway, and so does the token parse. -/
def parseNumber (cs : List Char) : Option (Dec × List Char) :=
  (decOfTok (cs.takeWhile numChar)).map (fun q => (q, cs.dropWhile numChar))

mutual

/-- json.loads value parser (whitespace before the value already skipped). -/
def parseVal : Nat → List Char → Option (Json × List Char)
  | 0, _ => none
  | f + 1, cs =>
    match cs with
    | [] => none
    | c :: r =>
      if c = lbraceC then
        match skipWs r with
        | d :: r2 =>
          if d = rbraceC then some (Json.obj [], r2)
          else (parseMembers f (d :: r2)).map (fun p => (Json.obj p.1, p.2))
        | [] => none
      else if c = lbrackC then
        match skipWs r with
        | d :: r2 =>
          if d = rbrackC then some (Json.arr [], r2)
          else (parseItems f (d :: r2)).map (fun p => (Json.arr p.1, p.2))
        | [] => none
      else if c = dquoteC then
        (parseStrChars r).map (fun p => (Json.str (String.mk p.1), p.2))
      else if c = 't' then
        if ['r', 'u', 'e'].isPrefixOf r then some (Json.bool true, r.drop 3) else none
      else if c = 'f' then
        if ['a', 'l', 's', 'e'].isPrefixOf r then some (Json.bool false, r.drop 4) else none
      else if c = 'n' then
        if ['u', 'l', 'l'].isPrefixOf r then some (Json.null, r.drop 3) else none
      else if c = '-' ∨ c.isDigit then
        (parseNumber cs).map (fun p => (Json.num p.1, p.2))
      else none

/-- Object members, starting at the first character of a key string. -/
def parseMembers : Nat → List Char → Option (List (String × Json) × List Char)
  | 0, _ => none
  | f + 1, cs =>
    match cs with
    | [] => none
    | c :: r =>
      if c = dquoteC then
        match parseStrChars r with
        | some (k, r1) =>
          match skipWs r1 with
          | d1 :: r2 =>
            if d1 = ':' then
              match parseVal f (skipWs r2) with
              | some (v, r3) =>
                match skipWs r3 with
                | d :: r4 =>
                  if d = ',' then
                    (parseMembers f (skipWs r4)).map
                      (fun p => ((String.mk k, v) :: p.1, p.2))
                  else if d = rbraceC then some ([(String.mk k, v)], r4)
                  else none
                | [] => none
              | none => none
            else none
          | [] => none
        | none => none
      else none

/-- Array items, starting at the first character of a value. -/
def parseItems : Nat → List Char → Option (List Json × List Char)
  | 0, _ => none
  | f + 1, cs =>
    match parseVal f cs with
    | some (v, r1) =>
      match skipWs r1 with
      | d :: r2 =>
        if d = ',' then (parseItems f (skipWs r2)).map (fun p => (v :: p.1, p.2))
        else if d = rbrackC then some ([v], r2)
        else none
      | [] => none
    | none => none

end

/-- Fuel that always suffices: at least one character is consumed per
three fuel steps along any call chain. -/
def valFuel (cs : List Char) : Nat := 3 * cs.length + 3

/-- json.loads on a character list: skip surrounding whitespace, parse one
value, require end of input. -/
def pyJsonLoads (cs : List Char) : Option Json :=
  match parseVal (valFuel cs) (skipWs cs) with
  | some (v, rest) => if skipWs rest = [] then some v else none
  | none => none

/-- json.loads on a string. -/
def pyLoadsStr (s : String) : Option Json := pyJsonLoads s.data

/-! ## extract_json_from_response (main_multimedia.py lines 121-192) -/

/-- One step of the balanced-brace scanner's state machine
(brace depth, inside-string flag, escape-pending flag), matching the loop
body of Strategy 2. -/
def sstep : Int × Bool × Bool → Char → Int × Bool × Bool :=
  fun st c =>
    if st.2.2 then (st.1, st.2.1, false)
    else if c = bslashC ∧ st.2.1 then (st.1, st.2.1, true)
    else if c = dquoteC then (st.1, !st.2.1, false)
    else if st.2.1 then st
    else if c = lbraceC then (st.1 + 1, st.2.1, false)
    else if c = rbraceC then (st.1 - 1, st.2.1, false)
    else st

/-- Fold of the scanner state machine over a character list. -/
def swalk (st : Int × Bool × Bool) (cs : List Char) : Int × Bool × Bool :=
  cs.foldl sstep st

/-- Strategy 2's scan: starting in state st, return the number of
characters consumed up to and including the brace at which the depth
counter returns to zero, or none if that never happens. -/
def scanEnd : Int × Bool × Bool → List Char → Option Nat
  | _, [] => none
  | st, c :: cs =>
    if ¬ st.2.2 ∧ ¬ st.2.1 ∧ c = rbraceC ∧ st.1 - 1 = 0 then some 1
    else (scanEnd (sstep st c) cs).map (· + 1)

/-- Strategy 3's regex search re.search(r'\{[^{}]+\}', text): the first
position holding an opening brace followed by at least one non-brace
character and then a closing brace; returns the matched characters. -/
def simpleMatch : List Char → Option (List Char)
  | [] => none
  | c :: rest =>
    if c = lbraceC then
      let mid := rest.takeWhile (fun x => ¬ x = lbraceC ∧ ¬ x = rbraceC)
      match rest.dropWhile (fun x => ¬ x = lbraceC ∧ ¬ x = rbraceC) with
      | d :: _ =>
        if d = rbraceC ∧ ¬ mid = [] then some (lbraceC :: (mid ++ [rbraceC]))
        else simpleMatch rest
      | [] => simpleMatch rest
    else simpleMatch rest

/-- text.find of the first opening brace, as an index option. -/
def findBrace : List Char → Option Nat
  | [] => none
  | c :: cs => if c = lbraceC then some 0 else (findBrace cs).map (· + 1)

/-- The value of a Python `return json.loads(...)` as seen by the caller:
a parsed JSON null is returned as Python None, indistinguishable from the
failure signal. -/
def pyRet : Json → Option Json
  | Json.null => none
  | v => some v

/-- extract_json_from_response, fuel-indexed (the recursive Strategy 2
fallback re-runs the whole function on a strictly shorter remainder, so
fuel length+1 is never exhausted). -/
def extractFuel : Nat → List Char → Option Json
  | 0, _ => none
  | f + 1, cs =>
    if cs = [] then none
    else
      match pyJsonLoads (pyStrip cs) with
      | some v => pyRet v
      | none =>
        match findBrace cs with
        | none => none
        | some i =>
          match scanEnd (0, false, false) (cs.drop i) with
          | some n =>
            match pyJsonLoads ((cs.drop i).take n) with
            | some v => pyRet v
            | none => extractFuel f (cs.drop (i + n))
          | none =>
            match simpleMatch cs with
            | some cand =>
              match pyJsonLoads cand with
              | some v => pyRet v
              | none => none
            | none => none

/-- extract_json_from_response(text). -/
def extract_json_from_response (t : String) : Option Json :=
  extractFuel (t.data.length + 1) t.data

/-! ## _combine_results (comprehensive_analyzer.py lines 214-279) -/

/-- x.get(key, default) for an arbitrary value x: only dicts have .get,
anything else raises AttributeError. -/
def pyGetE (j : Json) (key : String) (dflt : Json) : Except String Json :=
  match j with
  | Json.obj kvs => Except.ok (dictGetD kvs key dflt)
  | _ => Except.error "AttributeError"

/-- Python iteration (for p in x): lists yield elements, strings yield
one-character strings, dicts yield their keys, everything else raises
TypeError. -/
def pyIter : Json → Except String (List Json)
  | Json.arr l => Except.ok l
  | Json.str s => Except.ok (s.data.map (fun c => Json.str (String.mk [c])))
  | Json.obj kvs => Except.ok (kvs.map (fun kv => Json.str kv.1))
  | _ => Except.error "TypeError"

/-- The comprehension [p.get("emotion", "unknown") for p in ... if
p.get("emotion")]. -/
def emotionsOf : List Json → Except String (List Json)
  | [] => Except.ok []
  | p :: rest => do
    let cond ← pyGetE p "emotion" Json.null
    if pyTruthy cond then do
      let v ← pyGetE p "emotion" (Json.str "unknown")
      let tl ← emotionsOf rest
      pure (v :: tl)
    else emotionsOf rest

/-- _combine_results(results).  The result dict is assembled with its keys
in Python insertion order: the seven base keys, then quality_score when
the quality block ran, then the three special-attribute keys when the
context block ran; summary keys likewise in assignment order. -/
def combineContentPart (content : Json) : Except String (List (String × Json)) :=
  if pyTruthy content then do
    let ms ← pyGetE content "main_subjects" (Json.arr [])
    let st ← pyGetE content "setting" (Json.obj [])
    let de ← pyGetE content "description" (Json.str "")
    let ac ← pyGetE content "activities" (Json.arr [])
    pure [("main_subjects", ms), ("setting", st), ("description", de), ("activities", ac)]
  else pure []

def combinePeoplePart (people : Json) :
    Except String (Json × Json × List (String × Json)) :=
  if pyTruthy people then do
    let hp ← pyGetE people "has_people" (Json.bool false)
    let pc ← pyGetE people "people_count" (Json.int 0)
    let gd ← pyGetE people "group_dynamics" (Json.obj [])
    let pl ← pyGetE people "people" (Json.arr [])
    let plist ← pyIter pl
    let ems ← emotionsOf plist
    pure (hp, pc, [("group_dynamics", gd), ("emotions", Json.arr ems)])
  else pure (Json.bool false, Json.int 0, [])

def combineQualityPart (quality : Json) :
    Except String (Json × List (String × Json) × List (String × Json)) :=
  if pyTruthy quality then do
    let overall ← pyGetE quality "overall_quality" (Json.obj [])
    let tier ← pyGetE overall "tier" (Json.str "average")
    let score ← pyGetE overall "score" (Json.int 5)
    let ti ← pyGetE quality "technical_issues" (Json.arr [])
    pure (tier, [("quality_score", score)], [("technical_issues", ti)])
  else pure (Json.str "average", [], [])

def combineContextPart (context : Json) :
    Except String (Json × Json × Json × List (String × Json) × List (String × Json)) :=
  if pyTruthy context then do
    let tags ← pyGetE context "suggested_tags" (Json.arr [])
    let kw ← pyGetE context "searchable_keywords" (Json.arr [])
    let al ← pyGetE context "suggested_albums" (Json.arr [])
    let occ ← pyGetE context "occasion" (Json.obj [])
    let tem ← pyGetE context "temporal" (Json.obj [])
    let special ← pyGetE context "special_attributes" (Json.obj [])
    let iss ← pyGetE special "is_screenshot" (Json.bool false)
    let isd ← pyGetE special "is_document" (Json.bool false)
    let isf ← pyGetE special "is_selfie" (Json.bool false)
    pure (tags, kw, al, [("occasion", occ), ("temporal", tem)],
      [("is_screenshot", iss), ("is_document", isd), ("is_selfie", isf)])
  else pure (Json.arr [], Json.arr [], Json.arr [], [], [])

/-- Assembling the combined dict out of the four blocks' contributions. -/
def combineAssemble (sContent : List (String × Json))
    (ppart : Json × Json × List (String × Json))
    (qpart : Json × List (String × Json) × List (String × Json))
    (cpart : Json × Json × Json × List (String × Json) × List (String × Json)) : Json :=
  Json.obj
    ([("summary", Json.obj (sContent ++ ppart.2.2 ++ qpart.2.2 ++ cpart.2.2.2.1)),
      ("tags", cpart.1),
      ("searchable_keywords", cpart.2.1),
      ("suggested_albums", cpart.2.2.1),
      ("quality_tier", qpart.1),
      ("has_people", ppart.1),
      ("people_count", ppart.2.1)]
     ++ qpart.2.1 ++ cpart.2.2.2.2)

def _combine_results (results : List (String × Json)) : Except String Json := do
  let sContent ← combineContentPart (dictGetD results "content" (Json.obj []))
  let ppart ← combinePeoplePart (dictGetD results "people" (Json.obj []))
  let qpart ← combineQualityPart (dictGetD results "quality" (Json.obj []))
  let cpart ← combineContextPart (dictGetD results "context" (Json.obj []))
  pure (combineAssemble sContent ppart qpart cpart)

/-! ## prompts.py: templates, registry, context formatting, chain -/

def CONTENT_ANALYSIS_PROMPT : String :=
  "Analyze this image comprehensively. Focus on WHAT is in the image.\n\nProvide a detailed JSON response with the following structure:\n\x7b\n    \"main_subjects\": [\"list of primary subjects/focal points\"],\n    \"objects\": [\"list of all identifiable objects\"],\n    \"setting\": \x7b\n        \"type\": \"indoor/outdoor/mixed\",\n        \"location_type\": \"home/office/street/nature/restaurant/store/etc\",\n        \"specific_location\": \"more specific description if identifiable\"\n    \x7d,\n    \"environment\": \x7b\n        \"atmosphere\": \"calm/busy/intimate/festive/professional/etc\",\n        \"lighting_conditions\": \"natural/artificial/mixed/dim/bright\",\n        \"weather\": \"sunny/cloudy/rainy/snowy/not applicable\"\n    \x7d,\n    \"activities\": [\"list of actions/activities happening\"],\n    \"composition\": \x7b\n        \"style\": \"portrait/landscape/close-up/wide-shot/aerial/macro\",\n        \"framing\": \"centered/rule-of-thirds/asymmetric/etc\",\n        \"depth\": \"shallow/deep/flat\",\n        \"dominant_colors\": [\"primary colors in the image\"]\n    \x7d,\n    \"description\": \"2-3 sentence natural language description of the entire scene\"\n\x7d\n\nBe specific and detailed. List all visible objects. Describe the scene thoroughly.\nRespond ONLY with valid JSON, no additional text."

def PEOPLE_ANALYSIS_PROMPT : String :=
  "Analyze the PEOPLE in this image. If no people are visible, respond with the empty structure.\n\nProvide a detailed JSON response with the following structure:\n\x7b\n    \"people_count\": 0,\n    \"has_people\": false,\n    \"people\": [\n        \x7b\n            \"position\": \"left/center/right/background\",\n            \"estimated_age_range\": \"child/teen/young-adult/middle-aged/senior\",\n            \"estimated_gender\": \"male/female/uncertain\",\n            \"emotion\": \"happy/sad/neutral/surprised/angry/contemplative/etc\",\n            \"emotion_confidence\": \"high/medium/low\",\n            \"expression_details\": \"description of facial expression\",\n            \"pose\": \"standing/sitting/walking/lying/other\",\n            \"attire\": \"casual/formal/athletic/uniform/etc\",\n            \"notable_features\": [\"glasses\", \"hat\", \"beard\", etc]\n        \x7d\n    ],\n    \"group_dynamics\": \x7b\n        \"interaction_type\": \"conversation/posing/activity/none\",\n        \"relationship_inference\": \"family/friends/colleagues/strangers/romantic/etc\",\n        \"engagement_level\": \"high/medium/low/none\"\n    \x7d,\n    \"body_language\": \x7b\n        \"overall_mood\": \"positive/negative/neutral\",\n        \"openness\": \"open/closed/mixed\",\n        \"energy_level\": \"high/medium/low\"\n    \x7d,\n    \"faces_visible\": true,\n    \"faces_clear\": true\n\x7d\n\nIf no people are present, set people_count to 0, has_people to false, and leave people array empty.\nBe objective and respectful in descriptions. Avoid assumptions about identity.\nRespond ONLY with valid JSON, no additional text."

def QUALITY_ANALYSIS_PROMPT : String :=
  "Evaluate the TECHNICAL QUALITY of this image as a photography expert.\n\nProvide a detailed JSON response with the following structure:\n\x7b\n    \"overall_quality\": \x7b\n        \"score\": 7.5,\n        \"tier\": \"excellent/good/average/poor\",\n        \"summary\": \"brief quality assessment\"\n    \x7d,\n    \"focus\": \x7b\n        \"sharpness\": \"sharp/slightly-soft/soft/blurry\",\n        \"focus_area\": \"subject/background/everything/nothing\",\n        \"depth_of_field\": \"shallow/medium/deep\",\n        \"motion_blur\": \"none/slight/moderate/severe\"\n    \x7d,\n    \"exposure\": \x7b\n        \"level\": \"well-exposed/underexposed/overexposed\",\n        \"dynamic_range\": \"good/limited/clipped\",\n        \"highlights\": \"preserved/blown\",\n        \"shadows\": \"detailed/crushed\"\n    \x7d,\n    \"lighting\": \x7b\n        \"quality\": \"excellent/good/fair/poor\",\n        \"type\": \"natural/artificial/mixed/flash\",\n        \"direction\": \"front/side/back/diffused\",\n        \"harshness\": \"soft/medium/harsh\"\n    \x7d,\n    \"color\": \x7b\n        \"accuracy\": \"accurate/warm/cool/oversaturated/muted\",\n        \"white_balance\": \"correct/warm/cool/mixed\",\n        \"saturation\": \"natural/boosted/muted\",\n        \"contrast\": \"good/low/high\"\n    \x7d,\n    \"composition\": \x7b\n        \"balance\": \"balanced/unbalanced\",\n        \"subject_placement\": \"good/awkward\",\n        \"distractions\": \"none/minor/major\",\n        \"cropping\": \"appropriate/too-tight/too-loose\"\n    \x7d,\n    \"technical_issues\": [\"list any issues: noise, artifacts, chromatic aberration, etc\"],\n    \"improvements_suggested\": [\"list of potential improvements\"]\n\x7d\n\nScore from 1-10 where 10 is professional quality. Be critical but fair.\nRespond ONLY with valid JSON, no additional text."

def CONTEXT_ANALYSIS_PROMPT : String :=
  "Analyze the CONTEXT and generate METADATA for this image.\n\nProvide a detailed JSON response with the following structure:\n\x7b\n    \"temporal\": \x7b\n        \"time_of_day\": \"morning/afternoon/evening/night/unclear\",\n        \"season\": \"spring/summer/fall/winter/unclear\",\n        \"era\": \"contemporary/vintage/historical/unclear\",\n        \"event_timing\": \"during-event/posed/candid/unclear\"\n    \x7d,\n    \"occasion\": \x7b\n        \"event_type\": \"wedding/birthday/holiday/vacation/work/everyday/etc\",\n        \"formality\": \"formal/casual/semi-formal\",\n        \"significance\": \"special-occasion/routine/milestone\"\n    \x7d,\n    \"brands_products\": \x7b\n        \"visible_brands\": [\"list of identifiable brand names/logos\"],\n        \"products\": [\"list of identifiable products\"],\n        \"text_visible\": [\"any readable text in the image\"]\n    \x7d,\n    \"location_inference\": \x7b\n        \"geographic_region\": \"inferred region if identifiable\",\n        \"venue_type\": \"restaurant/park/home/office/etc\",\n        \"landmarks\": [\"any identifiable landmarks\"],\n        \"cultural_indicators\": [\"cultural elements visible\"]\n    \x7d,\n    \"suggested_tags\": [\"tag1\", \"tag2\", \"tag3\", \"etc - suggest 10-15 relevant tags\"],\n    \"suggested_albums\": [\"album suggestions based on content\"],\n    \"title_suggestions\": [\"2-3 potential titles for this image\"],\n    \"searchable_keywords\": [\"comprehensive list of search keywords\"],\n    \"content_warnings\": \x7b\n        \"has_sensitive_content\": false,\n        \"warnings\": []\n    \x7d,\n    \"special_attributes\": \x7b\n        \"is_screenshot\": false,\n        \"is_document\": false,\n        \"is_meme\": false,\n        \"is_artwork\": false,\n        \"is_selfie\": false,\n        \"has_text_overlay\": false\n    \x7d\n\x7d\n\nBe comprehensive with tags and keywords - these help with search.\nSuggest albums that would logically contain this image.\nRespond ONLY with valid JSON, no additional text."

def QUICK_ANALYSIS_PROMPT : String :=
  "Quickly analyze this image and provide key information.\n\nProvide a JSON response with:\n\x7b\n    \"description\": \"1-2 sentence description\",\n    \"main_subjects\": [\"list of main subjects\"],\n    \"setting\": \"brief setting description\",\n    \"people_count\": 0,\n    \"mood\": \"overall mood/atmosphere\",\n    \"quality_score\": 7.5,\n    \"suggested_tags\": [\"5-7 relevant tags\"]\n\x7d\n\nRespond ONLY with valid JSON, no additional text."

def SCENE_CLASSIFICATION_PROMPT : String :=
  "Analyze this image and classify the scene.\n\nRespond with JSON only:\n\x7b\n    \"setting\": \"indoor/outdoor/vehicle/virtual\",\n    \"environment\": \"home/office/restaurant/park/street/beach/forest/mountain/etc\",\n    \"mood\": \"happy/calm/energetic/romantic/professional/festive/dramatic/peaceful\",\n    \"time_of_day\": \"morning/afternoon/evening/night/unknown\",\n    \"weather\": \"sunny/cloudy/rainy/snowy/foggy/unknown\",\n    \"season\": \"spring/summer/fall/winter/unknown\"\n\x7d\n\nBe specific and accurate. Use only the provided categories.\nRespond ONLY with valid JSON, no additional text."

/-- Enumeration of analysis passes (prompts.AnalysisPass). -/
inductive AnalysisPass where
  | content : AnalysisPass
  | people : AnalysisPass
  | quality : AnalysisPass
  | context : AnalysisPass
deriving DecidableEq

/-- prompts.PromptConfig. -/
structure PromptConfig where
  name : String
  pass_type : AnalysisPass
  temperature : Dec
  max_tokens : Nat
  description : String
deriving DecidableEq

def CONTENT_ANALYSIS_CONFIG : PromptConfig :=
  ⟨"Content Analysis", AnalysisPass.content, ⟨3, -1⟩, 1024,
    "Analyzes main subjects, objects, setting, and composition"⟩

def PEOPLE_ANALYSIS_CONFIG : PromptConfig :=
  ⟨"People Analysis", AnalysisPass.people, ⟨3, -1⟩, 1024,
    "Analyzes people, emotions, demographics, and interactions"⟩

def QUALITY_ANALYSIS_CONFIG : PromptConfig :=
  ⟨"Quality Analysis", AnalysisPass.quality, ⟨2, -1⟩, 1024,
    "Evaluates technical quality, focus, exposure, and composition"⟩

def CONTEXT_ANALYSIS_CONFIG : PromptConfig :=
  ⟨"Context Analysis", AnalysisPass.context, ⟨3, -1⟩, 1024,
    "Infers context, generates tags, and suggests organization"⟩

def QUICK_ANALYSIS_CONFIG : PromptConfig :=
  ⟨"Quick Analysis", AnalysisPass.content, ⟨3, -1⟩, 512,
    "Fast single-pass analysis for quick processing"⟩

/-- prompts.PROMPTS registry (pass type, template, config). -/
def PROMPTS : List (String × String × Option PromptConfig) :=
  [("content", CONTENT_ANALYSIS_PROMPT, some CONTENT_ANALYSIS_CONFIG),
   ("people", PEOPLE_ANALYSIS_PROMPT, some PEOPLE_ANALYSIS_CONFIG),
   ("quality", QUALITY_ANALYSIS_PROMPT, some QUALITY_ANALYSIS_CONFIG),
   ("context", CONTEXT_ANALYSIS_PROMPT, some CONTEXT_ANALYSIS_CONFIG),
   ("quick", QUICK_ANALYSIS_PROMPT, some QUICK_ANALYSIS_CONFIG),
   ("scene", SCENE_CLASSIFICATION_PROMPT, none)]

def promptsLookup (pt : String) : Option (String × Option PromptConfig) :=
  (PROMPTS.find? (fun e => e.1 = pt)).map (fun e => e.2)

/-- prompts.get_prompt: raises ValueError for an unknown pass type. -/
def get_prompt (pt : String) : Except String String :=
  match promptsLookup pt with
  | some e => Except.ok e.1
  | none => Except.error ("ValueError: Unknown pass type: " ++ pt)

/-- prompts.get_config: returns None for an unknown pass type. -/
def get_config (pt : String) : Option PromptConfig :=
  match promptsLookup pt with
  | some e => e.2
  | none => none

def get_all_pass_types : List String := PROMPTS.map (fun e => e.1)

def get_comprehensive_passes : List String := ["content", "people", "quality", "context"]

def squoteC : Char := Char.ofNat 39

/-- str() of a parsed number; Python prints ints without a decimal point,
and no claim depends on the rendering of non-integral numbers. -/
def decStr (d : Dec) : String :=
  if d.exp = 0 then toString d.mant
  else toString d.mant ++ "e" ++ toString d.exp

mutual

/-- Python repr() of a JSON-compatible value, used when such a value is
interpolated inside a container. -/
def pyReprJ : Json → String
  | Json.null => "None"
  | Json.bool b => if b then "True" else "False"
  | Json.num d => decStr d
  | Json.str s => String.singleton squoteC ++ s ++ String.singleton squoteC
  | Json.arr l => "[" ++ String.intercalate ", " (pyReprL l) ++ "]"
  | Json.obj kvs =>
      String.singleton lbraceC ++ String.intercalate ", " (pyReprO kvs) ++
        String.singleton rbraceC

def pyReprL : List Json → List String
  | [] => []
  | x :: xs => pyReprJ x :: pyReprL xs

def pyReprO : List (String × Json) → List String
  | [] => []
  | (k, v) :: xs =>
      (String.singleton squoteC ++ k ++ String.singleton squoteC ++ ": " ++ pyReprJ v) ::
        pyReprO xs

end

/-- str() as used by an f-string: strings are inserted verbatim. -/
def pyToStr : Json → String
  | Json.str s => s
  | v => pyReprJ v

/-- Substring test on character lists (needle occurs inside hay). -/
def hasInfix : List Char → List Char → Bool
  | [], needle => needle.isEmpty
  | c :: rest, needle => needle.isPrefixOf (c :: rest) || hasInfix rest needle

/-- Python membership test (key in x). -/
def pyContains (j : Json) (key : String) : Except String Bool :=
  match j with
  | Json.obj kvs => Except.ok (dictGet kvs key).isSome
  | Json.arr l => Except.ok (l.any (fun x => x = Json.str key))
  | Json.str s => Except.ok (hasInfix s.data key.data)
  | _ => Except.error "TypeError"

def strOfJ : Json → Except String String
  | Json.str s => Except.ok s
  | _ => Except.error "TypeError"

/-- sep.join(x): x must iterate to strings. -/
def pyJoin (sep : String) (j : Json) : Except String String := do
  let items ← pyIter j
  let strs ← items.mapM strOfJ
  pure (String.intercalate sep strs)

/-- The two context additions drawn from the content pass's data
(prompts.py lines 352-360). -/
def contentBlockAdds (content : Json) : Except String (List String) := do
  let hms ← pyContains content "main_subjects"
  let a1 ← if hms then do
      let msv ← pyGetE content "main_subjects" (Json.arr [])
      let subjects ← pyJoin ", " msv
      pure ["Main subjects identified: " ++ subjects]
    else pure []
  let hst ← pyContains content "setting"
  let a2 ← if hst then do
      let st ← pyGetE content "setting" (Json.obj [])
      let ty ← pyGetE st "type" (Json.str "unknown")
      let lo ← pyGetE st "location_type" (Json.str "unknown")
      pure ["Setting: " ++ pyToStr ty ++ " - " ++ pyToStr lo]
    else pure []
  pure (a1 ++ a2)

/-- The first half of format_prompt_with_context: the additions derived
from previous_analysis (only its content entry is ever consulted). -/
def contextAdds1 (previous_analysis : List (String × Json)) :
    Except String (List String) :=
  if ¬ previous_analysis = [] then
    match dictGet previous_analysis "content" with
    | some content => contentBlockAdds content
    | none => pure []
  else pure ([] : List String)

/-- prompts.format_prompt_with_context (lines 338-373): appends a context
block built from the content pass entry of previous_analysis and from the
image metadata. -/
def format_prompt_with_context (prompt : String)
    (previous_analysis : List (String × Json))
    (image_metadata : Option (List (String × Json))) : Except String String := do
  let adds1 ← contextAdds1 previous_analysis
  let adds2 : List String :=
    match image_metadata with
    | some md =>
      if ¬ md = [] then
        (match dictGet md "width", dictGet md "height" with
          | some w, some h => ["Image dimensions: " ++ pyToStr w ++ "x" ++ pyToStr h]
          | _, _ => []) ++
        (match dictGet md "camera_model" with
          | some cm => if pyTruthy cm then ["Camera: " ++ pyToStr cm] else []
          | none => [])
      else []
    | none => []
  let adds := adds1 ++ adds2
  if ¬ adds = [] then
    pure (prompt ++ "\n\nContext from previous analysis:\n" ++
      String.intercalate "\n" (adds.map (fun c => "- " ++ c)))
  else
    pure prompt

/-- One entry of prompts.build_analysis_chain. -/
structure ChainEntry where
  pass_type : String
  depends_on : List String
  prompt : String
  config : PromptConfig
deriving DecidableEq

/-- prompts.build_analysis_chain (lines 376-407). -/
def build_analysis_chain : List ChainEntry :=
  [⟨"content", [], CONTENT_ANALYSIS_PROMPT, CONTENT_ANALYSIS_CONFIG⟩,
   ⟨"people", ["content"], PEOPLE_ANALYSIS_PROMPT, PEOPLE_ANALYSIS_CONFIG⟩,
   ⟨"quality", ["content"], QUALITY_ANALYSIS_PROMPT, QUALITY_ANALYSIS_CONFIG⟩,
   ⟨"context", ["content", "people"], CONTEXT_ANALYSIS_PROMPT, CONTEXT_ANALYSIS_CONFIG⟩]

/-! ## _run_single_pass and analyze (comprehensive_analyzer.py) -/

/-- Outcome of one ollama_client.generate call: a raised exception, or a
returned response whose text is response.get('response', ''). -/
inductive GenResult where
  | raise : String → GenResult
  | resp : String → GenResult
deriving DecidableEq

/-- comprehensive_analyzer.AnalysisResult (wall-clock duration dropped). -/
structure AnalysisResult where
  pass_type : String
  success : Bool
  data : Json
  error : Option String
  raw_response : Option String
deriving DecidableEq

/-- s[:n]. -/
def pyTake (n : Nat) (s : String) : String := String.mk (s.data.take n)

/-- The retry loop of _run_single_pass: remaining counts the attempts
still allowed (max_retries+1 at entry), i is the 0-based attempt index,
lastRaw the last response text assigned to the raw_response local.
Returns the AnalysisResult together with the number of backend
invocations made. -/
def passLoop (pt : String) (oracle : Nat → GenResult) (mr : Nat) :
    Nat → Nat → Option String → AnalysisResult × Nat
  | 0, i, lastRaw =>
    (⟨pt, false, Json.obj [], some ("Failed after " ++ toString (mr + 1) ++ " attempts"),
      lastRaw.map (pyTake 500)⟩, i)
  | remaining + 1, i, lastRaw =>
    match oracle i with
    | GenResult.raise _ => passLoop pt oracle mr remaining (i + 1) lastRaw
    | GenResult.resp raw =>
      match extract_json_from_response raw with
      | some v =>
        if pyTruthy v then
          (⟨pt, true, v, none, if raw = "" then none else some (pyTake 500 raw)⟩, i + 1)
        else passLoop pt oracle mr remaining (i + 1) (some raw)
      | none => passLoop pt oracle mr remaining (i + 1) (some raw)

/-- _run_single_pass (lines 138-212).  Prompt construction happens before
the retry loop, outside its try/except, so a failure there propagates as
an exception; the backend is abstracted as an oracle giving each
attempt's outcome. -/
def _run_single_pass (ecc : Bool) (mr : Nat) (pt : String)
    (prev : List (String × Json)) (md : Option (List (String × Json)))
    (oracle : Nat → GenResult) : Except String (AnalysisResult × Nat) := do
  let prompt0 ← get_prompt pt
  let _cfg := get_config pt
  let _prompt ← if ecc ∧ ¬ prev = [] then format_prompt_with_context prompt0 prev md
    else pure prompt0
  pure (passLoop pt oracle mr (mr + 1) 0 none)

/-- comprehensive_analyzer.ComprehensiveAnalysisResult (durations and
timestamp dropped). -/
structure Session where
  success : Bool
  content : Json
  people : Json
  quality : Json
  context : Json
  combined : Json
  pass_results : List AnalysisResult
  passes_completed : Nat
  passes_failed : Nat
  errors : List String
deriving DecidableEq

def initSession : Session :=
  ⟨true, Json.obj [], Json.obj [], Json.obj [], Json.obj [], Json.obj [], [], 0, 0, []⟩

/-- Storing a successful pass's data in its Session field
(comprehensive_analyzer.py lines 337-345). -/
def storePassData (st : Session) (pt : String) (d : Json) : Session :=
  if pt = "content" then {st with content := d}
  else if pt = "people" then {st with people := d}
  else if pt = "quality" then {st with quality := d}
  else if pt = "context" then {st with context := d}
  else st

/-- The error string a failed pass appends to the session's error list
(line 349); pass_result.error is truthiness-checked first (line 348). -/
def passErrs (pt : String) (res : AnalysisResult) : List String :=
  match res.error with
  | some e => if e = "" then [] else [pt ++ ": " ++ e]
  | none => []

/-- The comprehensive-mode pass loop of analyze, followed by the
_combine_results call; the second component is the exception caught by
analyze's except block, if any. -/
def compLoop (ecc : Bool) (mr : Nat) (md : Option (List (String × Json)))
    (oracle : Nat → GenResult) :
    List String → Session → List (String × Json) → Nat → Session × Option String
  | [], st, prev, _base =>
    (match _combine_results prev with
     | Except.ok c => ({st with combined := c}, none)
     | Except.error e => (st, some e))
  | pt :: rest, st, prev, base =>
    match _run_single_pass ecc mr pt prev md (fun k => oracle (base + k)) with
    | Except.error e => (st, some e)
    | Except.ok (res, n) =>
      if res.success then
        compLoop ecc mr md oracle rest
          (storePassData
            {st with pass_results := st.pass_results ++ [res],
                     passes_completed := st.passes_completed + 1}
            pt res.data)
          (prev ++ [(pt, res.data)]) (base + n)
      else
        compLoop ecc mr md oracle rest
          {st with pass_results := st.pass_results ++ [res],
                   passes_failed := st.passes_failed + 1,
                   errors := st.errors ++ passErrs pt res}
          prev (base + n)

/-- The quick-mode branch of analyze. -/
def quickRun (ecc : Bool) (mr : Nat) (md : Option (List (String × Json)))
    (oracle : Nat → GenResult) : Session × Option String :=
  match _run_single_pass ecc mr "quick" [] md oracle with
  | Except.error e => (initSession, some e)
  | Except.ok (res, _n) =>
    let st := {initSession with pass_results := [res]}
    if res.success then
      ({st with content := res.data, combined := res.data, passes_completed := 1}, none)
    else
      let msg : String :=
        match res.error with
        | some e => if e = "" then "Quick analysis failed" else e
        | none => "Quick analysis failed"
      ({st with passes_failed := 1, errors := [msg]}, none)

/-- The try block of analyze: image preparation, then the quick or
comprehensive branch; the second component is the caught exception. -/
def analyzeBody (quickMode ecc : Bool) (mr : Nat) (prep : Except String String)
    (oracle : Nat → GenResult) (md : Option (List (String × Json))) :
    Session × Option String :=
  match prep with
  | Except.error e => (initSession, some e)
  | Except.ok _img =>
    if quickMode then quickRun ecc mr md oracle
    else compLoop ecc mr md oracle get_comprehensive_passes initSession [] 0

/-- The code after analyze's try/except: record a caught exception and
apply the final passes_completed == 0 demotion. -/
def analyzeFinalize (body : Session × Option String) : Session × Option String :=
  let st1 : Session :=
    match body.2 with
    | some e => {body.1 with success := false, errors := body.1.errors ++ [e]}
    | none => body.1
  let st2 : Session := if st1.passes_completed = 0 then {st1 with success := false} else st1
  (st2, body.2)

/-- analyze (lines 281-371).  prep models the _image_to_base64 call, the
first statement inside the try block; the second component of the result
is the exception caught by the except block, if any. -/
def analyzeCore (quickMode ecc : Bool) (mr : Nat) (prep : Except String String)
    (oracle : Nat → GenResult) (md : Option (List (String × Json))) :
    Session × Option String :=
  analyzeFinalize (analyzeBody quickMode ecc mr prep oracle md)

/-- analyze's return value: always a completed Session, never an
exception. -/
def analyze (quickMode ecc : Bool) (mr : Nat) (prep : Except String String)
    (oracle : Nat → GenResult) (md : Option (List (String × Json))) : Session :=
  (analyzeCore quickMode ecc mr prep oracle md).1

/-! ## Helper lemmas -/

theorem exceptBind_ok {α β : Type} (x : Except String α) (f : α → Except String β) (b : β) :
    (x >>= f) = Except.ok b ↔ ∃ a, x = Except.ok a ∧ f a = Except.ok b := by
  cases x <;> simp [Bind.bind, Except.bind]

theorem exceptPure_ok {α : Type} (a b : α) :
    (pure a : Except String α) = Except.ok b ↔ a = b := by
  simp [pure, Except.pure]

theorem dictGet_append (l1 l2 : List (String × Json)) (k : String) :
    dictGet (l1 ++ l2) k =
      (match dictGet l1 k with
       | some v => some v
       | none => dictGet l2 k) := by
  induction l1 with
  | nil => simp [dictGet]
  | cons hd tl ih =>
    obtain ⟨k1, v1⟩ := hd
    by_cases h : k1 = k <;> simp [dictGet, h, ih]

/-- For any successful context block, the appended special-attribute
entries hold no key other than the three is_* keys. -/
theorem contextPart_entries (ctx : Json)
    (c : Json × Json × Json × List (String × Json) × List (String × Json))
    (h : combineContextPart ctx = Except.ok c) :
    c.2.2.2.2 = [] ∨
      ∃ a b d, c.2.2.2.2 =
        [("is_screenshot", a), ("is_document", b), ("is_selfie", d)] := by
  unfold combineContextPart at h
  by_cases ht : pyTruthy ctx = true
  · rw [if_pos ht] at h
    simp only [exceptBind_ok] at h
    obtain ⟨t1, -, t2, -, t3, -, t4, -, t5, -, t6, -, t7, -, t8, -, t9, -, h⟩ := h
    simp only [exceptPure_ok] at h
    cases h
    right
    exact ⟨t7, t8, t9, rfl⟩
  · rw [if_neg ht] at h
    simp only [exceptPure_ok] at h
    cases h
    left
    rfl

/-- A successful merge decomposes into the four blocks' results. -/
theorem combine_ok_shape (results : List (String × Json)) (v : Json)
    (h : _combine_results results = Except.ok v) :
    ∃ s p q c,
      combineContentPart (dictGetD results "content" (Json.obj [])) = Except.ok s ∧
      combinePeoplePart (dictGetD results "people" (Json.obj [])) = Except.ok p ∧
      combineQualityPart (dictGetD results "quality" (Json.obj [])) = Except.ok q ∧
      combineContextPart (dictGetD results "context" (Json.obj [])) = Except.ok c ∧
      v = combineAssemble s p q c := by
  unfold _combine_results at h
  simp only [exceptBind_ok] at h
  obtain ⟨s, hs, p, hp, q, hq, c, hc, h⟩ := h
  simp only [exceptPure_ok] at h
  exact ⟨s, p, q, c, hs, hp, hq, hc, h.symm⟩

/-- Evaluation of the quality block on a dict-shaped quality pass. -/
theorem qualityPart_eval (q ov : List (String × Json))
    (hov : dictGetD q "overall_quality" (Json.obj []) = Json.obj ov) :
    combineQualityPart (Json.obj q) =
      (if q = [] then Except.ok (Json.str "average", [], [])
       else Except.ok (dictGetD ov "tier" (Json.str "average"),
         [("quality_score", dictGetD ov "score" (Json.int 5))],
         [("technical_issues", dictGetD q "technical_issues" (Json.arr []))])) := by
  by_cases hq : q = []
  · subst hq
    simp [combineQualityPart, pyTruthy, pure, Except.pure]
  · rw [if_neg hq]
    simp only [combineQualityPart, pyTruthy]
    rw [if_pos (by simp [hq])]
    simp [pyGetE, hov, Bind.bind, Except.bind, pure, Except.pure]

/-! ## Claim C2 -/

/-- The combined record produced by merging the empty per-pass mapping. -/
def emptyMergeRecord : List (String × Json) :=
  [("summary", Json.obj []), ("tags", Json.arr []), ("searchable_keywords", Json.arr []),
   ("suggested_albums", Json.arr []), ("quality_tier", Json.str "average"),
   ("has_people", Json.bool false), ("people_count", Json.int 0)]

/-- C2 (counterexample): merging an empty per-pass mapping yields a record
in which the keys is_screenshot, is_document and is_selfie are absent
altogether, not present with value false as the claim states. -/
theorem c2_counterexample :
    _combine_results [] = Except.ok (Json.obj emptyMergeRecord) ∧
    dictGet emptyMergeRecord "is_screenshot" = none ∧
    dictGet emptyMergeRecord "is_document" = none ∧
    dictGet emptyMergeRecord "is_selfie" = none := by decide

/-- C2 (amended): merging an empty per-pass mapping yields a combined
record with has_people=false, people_count=0, quality_tier="average",
tags=[], searchable_keywords=[], and with the special-attribute keys
is_screenshot, is_document, is_selfie omitted from the record (their
defaults apply only when the context pass is present but lacks the
fields). -/
theorem c2_empty_merge :
    _combine_results [] = Except.ok (Json.obj emptyMergeRecord) ∧
    dictGet emptyMergeRecord "has_people" = some (Json.bool false) ∧
    dictGet emptyMergeRecord "people_count" = some (Json.int 0) ∧
    dictGet emptyMergeRecord "quality_tier" = some (Json.str "average") ∧
    dictGet emptyMergeRecord "tags" = some (Json.arr []) ∧
    dictGet emptyMergeRecord "searchable_keywords" = some (Json.arr []) ∧
    dictGet emptyMergeRecord "is_screenshot" = none ∧
    dictGet emptyMergeRecord "is_document" = none ∧
    dictGet emptyMergeRecord "is_selfie" = none := by decide

/-! ## Claim C7 -/

/-- C7 (counterexample): with the quality pass present but its
overall_quality lacking a score field, the combined record carries
quality_score = 5 (Python 5.0) instead of omitting the field as the claim
states. -/
theorem c7_counterexample :
    _combine_results
        [("quality", Json.obj [("overall_quality", Json.obj [("tier", Json.str "good")])])] =
      Except.ok (Json.obj
        [("summary", Json.obj [("technical_issues", Json.arr [])]),
         ("tags", Json.arr []), ("searchable_keywords", Json.arr []),
         ("suggested_albums", Json.arr []), ("quality_tier", Json.str "good"),
         ("has_people", Json.bool false), ("people_count", Json.int 0),
         ("quality_score", Json.int 5)]) ∧
    dictGet
        [("summary", Json.obj [("technical_issues", Json.arr [])]),
         ("tags", Json.arr []), ("searchable_keywords", Json.arr []),
         ("suggested_albums", Json.arr []), ("quality_tier", Json.str "good"),
         ("has_people", Json.bool false), ("people_count", Json.int 0),
         ("quality_score", Json.int 5)] "quality_score" ≠ none := by decide

/-- C7 (amended): in a successful merge whose quality entry is a dict q
with dict-shaped overall_quality ov, the combined record's quality_score
equals ov's score field with default 5 whenever the quality pass is
present and truthy, and the key is omitted exactly when the quality pass
is absent or empty. -/
theorem c7_quality_score_rule (results : List (String × Json))
    (q ov kvs : List (String × Json))
    (hq : dictGetD results "quality" (Json.obj []) = Json.obj q)
    (hov : dictGetD q "overall_quality" (Json.obj []) = Json.obj ov)
    (hok : _combine_results results = Except.ok (Json.obj kvs)) :
    dictGet kvs "quality_score" =
      (if q = [] then none else some (dictGetD ov "score" (Json.int 5))) := by
  obtain ⟨s, p, qq, c, hs, hp, hqq, hc, hv⟩ := combine_ok_shape results _ hok
  rw [hq, qualityPart_eval q ov hov] at hqq
  have hsp := contextPart_entries _ _ hc
  by_cases hqe : q = []
  · rw [if_pos hqe] at hqq
    cases hqq
    rw [if_pos hqe]
    cases hv with
    | refl =>
      rcases hsp with hsp | ⟨a, b, d, hsp⟩ <;>
        simp [combineAssemble, dictGet_append, dictGet, hsp]
  · rw [if_neg hqe] at hqq
    cases hqq
    rw [if_neg hqe]
    cases hv with
    | refl =>
      rcases hsp with hsp | ⟨a, b, d, hsp⟩ <;>
        simp [combineAssemble, dictGet_append, dictGet, hsp]

/-- C7 (witness): the amended rule applied to the §8 example data, where
overall_quality carries score 8. -/
theorem c7_quality_score_rule_witness :
    dictGetD [("quality", Json.obj [("overall_quality",
        Json.obj [("tier", Json.str "good"), ("score", Json.int 8)])])]
      "quality" (Json.obj []) =
      Json.obj [("overall_quality", Json.obj [("tier", Json.str "good"), ("score", Json.int 8)])] ∧
    dictGet
        [("summary", Json.obj [("technical_issues", Json.arr [])]),
         ("tags", Json.arr []), ("searchable_keywords", Json.arr []),
         ("suggested_albums", Json.arr []), ("quality_tier", Json.str "good"),
         ("has_people", Json.bool false), ("people_count", Json.int 0),
         ("quality_score", Json.int 8)] "quality_score" =
      (if [("overall_quality", Json.obj [("tier", Json.str "good"), ("score", Json.int 8)])] =
          ([] : List (String × Json)) then none
       else some (dictGetD [("tier", Json.str "good"), ("score", Json.int 8)] "score" (Json.int 5))) :=
  ⟨by decide,
    c7_quality_score_rule
      [("quality", Json.obj [("overall_quality",
        Json.obj [("tier", Json.str "good"), ("score", Json.int 8)])])]
      [("overall_quality", Json.obj [("tier", Json.str "good"), ("score", Json.int 8)])]
      [("tier", Json.str "good"), ("score", Json.int 8)]
      [("summary", Json.obj [("technical_issues", Json.arr [])]),
       ("tags", Json.arr []), ("searchable_keywords", Json.arr []),
       ("suggested_albums", Json.arr []), ("quality_tier", Json.str "good"),
       ("has_people", Json.bool false), ("people_count", Json.int 0),
       ("quality_score", Json.int 8)]
      (by decide) (by decide) (by decide)⟩

/-! ## Claim C6 -/

def isObjJ : Json → Bool
  | Json.obj _ => true
  | _ => false

/-- A pass value the merger can consume: a dict, or anything falsy
(a falsy value skips its block entirely). -/
def objOrFalsy (j : Json) : Bool := isObjJ j || !pyTruthy j

/-- A value of the people pass's people field over which the emotion
comprehension runs without raising. -/
def peopleListOk : Json → Bool
  | Json.arr l => l.all isObjJ
  | Json.str s => decide (s = "")
  | Json.obj kvs => decide (kvs = [])
  | _ => false

/-- The domain on which _combine_results cannot raise: every present pass
value is a dict or falsy, the people list holds only dicts, and
overall_quality / special_attributes are dicts when their block runs. -/
def mergeShaped (results : List (String × Json)) : Bool :=
  (objOrFalsy (dictGetD results "content" (Json.obj []))) &&
  (objOrFalsy (dictGetD results "people" (Json.obj [])) &&
    (match dictGetD results "people" (Json.obj []) with
     | Json.obj kvs => !pyTruthy (Json.obj kvs) || peopleListOk (dictGetD kvs "people" (Json.arr []))
     | _ => true)) &&
  (objOrFalsy (dictGetD results "quality" (Json.obj [])) &&
    (match dictGetD results "quality" (Json.obj []) with
     | Json.obj kvs => !pyTruthy (Json.obj kvs) || isObjJ (dictGetD kvs "overall_quality" (Json.obj []))
     | _ => true)) &&
  (objOrFalsy (dictGetD results "context" (Json.obj [])) &&
    (match dictGetD results "context" (Json.obj []) with
     | Json.obj kvs => !pyTruthy (Json.obj kvs) || isObjJ (dictGetD kvs "special_attributes" (Json.obj []))
     | _ => true))

theorem truthy_shaped (j : Json) (h : objOrFalsy j = true) (ht : pyTruthy j = true) :
    ∃ kvs, j = Json.obj kvs := by
  cases j with
  | obj kvs => exact ⟨kvs, rfl⟩
  | null => exact absurd ht (by simp [pyTruthy])
  | bool b => simp [objOrFalsy, isObjJ, ht] at h
  | num q => simp [objOrFalsy, isObjJ, ht] at h
  | str s => simp [objOrFalsy, isObjJ, ht] at h
  | arr l => simp [objOrFalsy, isObjJ, ht] at h

theorem emotionsOf_ok (l : List Json) (h : l.all isObjJ = true) :
    ∃ out, emotionsOf l = Except.ok out := by
  induction l with
  | nil => exact ⟨[], rfl⟩
  | cons p rest ih =>
    simp only [List.all_cons, Bool.and_eq_true] at h
    obtain ⟨hout, hrest⟩ := ih h.2
    obtain ⟨kvs, rfl⟩ : ∃ kvs, p = Json.obj kvs := by
      cases p <;> first
        | exact ⟨_, rfl⟩
        | (exfalso; simp [isObjJ] at h)
    by_cases hc : pyTruthy (dictGetD kvs "emotion" Json.null) = true
    · exact ⟨dictGetD kvs "emotion" (Json.str "unknown") :: hout, by
        simp [emotionsOf, pyGetE, Bind.bind, Except.bind, hc, hrest, pure, Except.pure]⟩
    · exact ⟨hout, by
        simp [emotionsOf, pyGetE, Bind.bind, Except.bind, hc, hrest]⟩

theorem pyIter_people (pl : Json) (h : peopleListOk pl = true) :
    ∃ l, pyIter pl = Except.ok l ∧ l.all isObjJ = true := by
  cases pl with
  | arr l => exact ⟨l, rfl, h⟩
  | str s =>
    simp only [peopleListOk, decide_eq_true_eq] at h
    subst h
    exact ⟨[], rfl, rfl⟩
  | obj kvs =>
    simp only [peopleListOk, decide_eq_true_eq] at h
    subst h
    exact ⟨[], rfl, rfl⟩
  | null => simp [peopleListOk] at h
  | bool b => simp [peopleListOk] at h
  | num q => simp [peopleListOk] at h

theorem isObjJ_shaped (j : Json) (h : isObjJ j = true) : ∃ kvs, j = Json.obj kvs := by
  cases j <;> first
    | exact ⟨_, rfl⟩
    | simp [isObjJ] at h

theorem contentPart_ok (j : Json) (h : objOrFalsy j = true) :
    ∃ s, combineContentPart j = Except.ok s := by
  by_cases ht : pyTruthy j = true
  · obtain ⟨kvs, rfl⟩ := truthy_shaped j h ht
    refine ⟨[("main_subjects", dictGetD kvs "main_subjects" (Json.arr [])),
             ("setting", dictGetD kvs "setting" (Json.obj [])),
             ("description", dictGetD kvs "description" (Json.str "")),
             ("activities", dictGetD kvs "activities" (Json.arr []))], ?_⟩
    unfold combineContentPart
    rw [if_pos ht]
    rfl
  · exact ⟨[], by unfold combineContentPart; rw [if_neg ht]; rfl⟩

theorem peoplePart_ok (j : Json) (h1 : objOrFalsy j = true)
    (h2 : ∀ kvs, j = Json.obj kvs →
      peopleListOk (dictGetD kvs "people" (Json.arr [])) = true) :
    ∃ p, combinePeoplePart j = Except.ok p := by
  by_cases ht : pyTruthy j = true
  · obtain ⟨kvs, rfl⟩ := truthy_shaped j h1 ht
    obtain ⟨l, hl, hall⟩ := pyIter_people _ (h2 kvs rfl)
    obtain ⟨out, hout⟩ := emotionsOf_ok l hall
    refine ⟨(dictGetD kvs "has_people" (Json.bool false),
             dictGetD kvs "people_count" (Json.int 0),
             [("group_dynamics", dictGetD kvs "group_dynamics" (Json.obj [])),
              ("emotions", Json.arr out)]), ?_⟩
    unfold combinePeoplePart
    rw [if_pos ht]
    simp [pyGetE, Bind.bind, Except.bind, hl, hout, pure, Except.pure]
  · exact ⟨(Json.bool false, Json.int 0, []), by
      unfold combinePeoplePart; rw [if_neg ht]; rfl⟩

theorem qualityPart_ok (j : Json) (h1 : objOrFalsy j = true)
    (h2 : ∀ kvs, j = Json.obj kvs →
      isObjJ (dictGetD kvs "overall_quality" (Json.obj [])) = true) :
    ∃ q, combineQualityPart j = Except.ok q := by
  by_cases ht : pyTruthy j = true
  · obtain ⟨kvs, rfl⟩ := truthy_shaped j h1 ht
    obtain ⟨ov, hov⟩ := isObjJ_shaped _ (h2 kvs rfl)
    refine ⟨(dictGetD ov "tier" (Json.str "average"),
             [("quality_score", dictGetD ov "score" (Json.int 5))],
             [("technical_issues", dictGetD kvs "technical_issues" (Json.arr []))]), ?_⟩
    unfold combineQualityPart
    rw [if_pos ht]
    simp [pyGetE, hov, Bind.bind, Except.bind, pure, Except.pure]
  · exact ⟨(Json.str "average", [], []), by
      unfold combineQualityPart; rw [if_neg ht]; rfl⟩

theorem contextPart_ok (j : Json) (h1 : objOrFalsy j = true)
    (h2 : ∀ kvs, j = Json.obj kvs →
      isObjJ (dictGetD kvs "special_attributes" (Json.obj [])) = true) :
    ∃ c, combineContextPart j = Except.ok c := by
  by_cases ht : pyTruthy j = true
  · obtain ⟨kvs, rfl⟩ := truthy_shaped j h1 ht
    obtain ⟨sp, hsp⟩ := isObjJ_shaped _ (h2 kvs rfl)
    refine ⟨(dictGetD kvs "suggested_tags" (Json.arr []),
             dictGetD kvs "searchable_keywords" (Json.arr []),
             dictGetD kvs "suggested_albums" (Json.arr []),
             [("occasion", dictGetD kvs "occasion" (Json.obj [])),
              ("temporal", dictGetD kvs "temporal" (Json.obj []))],
             [("is_screenshot", dictGetD sp "is_screenshot" (Json.bool false)),
              ("is_document", dictGetD sp "is_document" (Json.bool false)),
              ("is_selfie", dictGetD sp "is_selfie" (Json.bool false))]), ?_⟩
    unfold combineContextPart
    rw [if_pos ht]
    simp [pyGetE, hsp, Bind.bind, Except.bind, pure, Except.pure]
  · exact ⟨(Json.arr [], Json.arr [], Json.arr [], [], []), by
      unfold combineContextPart; rw [if_neg ht]; rfl⟩

/-- C6 (counterexample): _combine_results raises (AttributeError) when a
pass value is not a mapping, so the merger is not total over all
JSON-shaped inputs as the claim states. -/
theorem c6_counterexample :
    _combine_results [("content", Json.arr [Json.int 1])] =
      Except.error "AttributeError" := by decide

/-- C6 (amended): the merger is a pure function that returns a combined
record without raising for every per-pass mapping in which each pass
value is a dict or falsy, the people list holds only dicts, and
overall_quality / special_attributes are dicts when their blocks run;
outside this domain it can raise. -/
theorem c6_merge_total (results : List (String × Json))
    (h : mergeShaped results = true) :
    ∃ v, _combine_results results = Except.ok v := by
  unfold mergeShaped at h
  simp only [Bool.and_eq_true] at h
  obtain ⟨⟨⟨hc, hp1, hp2⟩, hq1, hq2⟩, hx1, hx2⟩ := h
  obtain ⟨s, hs⟩ := contentPart_ok _ hc
  obtain ⟨p, hp⟩ := peoplePart_ok _ hp1 (by
    intro kvs hkvs
    rw [hkvs] at hp2
    simp only [Bool.or_eq_true] at hp2
    rcases hp2 with hfalsy | hok
    · have hnil : kvs = [] := by simpa [pyTruthy] using hfalsy
      subst hnil
      decide
    · exact hok)
  obtain ⟨q, hq⟩ := qualityPart_ok _ hq1 (by
    intro kvs hkvs
    rw [hkvs] at hq2
    simp only [Bool.or_eq_true] at hq2
    rcases hq2 with hfalsy | hok
    · have hnil : kvs = [] := by simpa [pyTruthy] using hfalsy
      subst hnil
      decide
    · exact hok)
  obtain ⟨c, hcx⟩ := contextPart_ok _ hx1 (by
    intro kvs hkvs
    rw [hkvs] at hx2
    simp only [Bool.or_eq_true] at hx2
    rcases hx2 with hfalsy | hok
    · have hnil : kvs = [] := by simpa [pyTruthy] using hfalsy
      subst hnil
      decide
    · exact hok)
  refine ⟨combineAssemble s p q c, ?_⟩
  unfold _combine_results
  rw [hs, hp, hq, hcx]
  simp [Bind.bind, Except.bind, pure, Except.pure]

/-- C6 (witness): the amended totality applied to the §8 end-to-end
example data. -/
theorem c6_merge_total_witness :
    mergeShaped
        [("content", Json.obj [("main_subjects", Json.arr [Json.str "dog"])]),
         ("people", Json.obj [("has_people", Json.bool true), ("people_count", Json.int 1),
            ("people", Json.arr [Json.obj [("emotion", Json.str "happy")]])]),
         ("quality", Json.obj [("overall_quality",
            Json.obj [("tier", Json.str "good"), ("score", Json.int 8)])]),
         ("context", Json.obj [("suggested_tags", Json.arr [Json.str "pet", Json.str "outdoor"]),
            ("special_attributes", Json.obj [("is_selfie", Json.bool false)])])] = true ∧
    ∃ v, _combine_results
        [("content", Json.obj [("main_subjects", Json.arr [Json.str "dog"])]),
         ("people", Json.obj [("has_people", Json.bool true), ("people_count", Json.int 1),
            ("people", Json.arr [Json.obj [("emotion", Json.str "happy")]])]),
         ("quality", Json.obj [("overall_quality",
            Json.obj [("tier", Json.str "good"), ("score", Json.int 8)])]),
         ("context", Json.obj [("suggested_tags", Json.arr [Json.str "pet", Json.str "outdoor"]),
            ("special_attributes", Json.obj [("is_selfie", Json.bool false)])])] = Except.ok v :=
  ⟨by decide, c6_merge_total _ (by decide)⟩

/-! ## Claim C8 -/

/-- format_prompt_with_context reads previous_analysis only through its
content entry. -/
theorem format_content_only (prompt : String)
    (m1 m2 : List (String × Json)) (md : Option (List (String × Json)))
    (h : dictGet m1 "content" = dictGet m2 "content") :
    format_prompt_with_context prompt m1 md =
      format_prompt_with_context prompt m2 md := by
  have key : ∀ m : List (String × Json),
      contextAdds1 m =
      (match dictGet m "content" with
       | some content => contentBlockAdds content
       | none => pure ([] : List String)) := by
    intro m
    unfold contextAdds1
    by_cases hm : m = []
    · subst hm
      simp [dictGet]
    · rw [if_pos hm]
  unfold format_prompt_with_context
  rw [key m1, key m2, h]

/-- Concrete content-pass data used to test context folding. -/
def c8ContentData : Json :=
  Json.obj [("main_subjects", Json.arr [Json.str "dog"]),
            ("setting", Json.obj [("type", Json.str "outdoor"),
                                  ("location_type", Json.str "park")])]

/-- Concrete people-pass data used to test context folding. -/
def c8PeopleData : Json :=
  Json.obj [("people_count", Json.int 2), ("has_people", Json.bool true),
            ("people", Json.arr [Json.obj [("emotion", Json.str "ecstatic")]])]

/-- C8 (counterexample): the chain declares that the context pass depends
on content and people, yet the prompt built for the context pass is
identical whether or not the people pass's (truthy, non-empty) output is
present in the accumulated context, and the context block holds only
content-derived lines; the people pass's fields are never folded in. -/
theorem c8_counterexample :
    build_analysis_chain.map (fun e => (e.pass_type, e.depends_on)) =
      [("content", ([] : List String)), ("people", ["content"]),
       ("quality", ["content"]), ("context", ["content", "people"])] ∧
    pyTruthy c8PeopleData = true ∧
    format_prompt_with_context "P"
        [("content", c8ContentData), ("people", c8PeopleData)] none =
      Except.ok ("P\n\nContext from previous analysis:\n- Main subjects identified: dog\n- Setting: outdoor - park") ∧
    format_prompt_with_context CONTEXT_ANALYSIS_PROMPT
        [("content", c8ContentData), ("people", c8PeopleData)] none =
      format_prompt_with_context CONTEXT_ANALYSIS_PROMPT
        [("content", c8ContentData)] none :=
  ⟨by decide, by decide, by decide,
    format_content_only CONTEXT_ANALYSIS_PROMPT
      [("content", c8ContentData), ("people", c8PeopleData)]
      [("content", c8ContentData)] none (by decide)⟩

/-- C8 (amended): the context block folded into a later pass's prompt
draws only on the content pass's entry of the accumulated context (its
main_subjects and setting) plus the image metadata; the declared
soft-dependency lists are not consulted, and in particular the people
pass's output never reaches any prompt. -/
theorem c8_context_only_content (prompt : String)
    (m1 m2 : List (String × Json)) (md : Option (List (String × Json)))
    (h : dictGet m1 "content" = dictGet m2 "content") :
    format_prompt_with_context prompt m1 md =
      format_prompt_with_context prompt m2 md :=
  format_content_only prompt m1 m2 md h

/-- C8 (witness): the amended statement applied to concrete context
accumulators that agree on their content entry but differ on people. -/
theorem c8_context_only_content_witness :
    dictGet [("content", c8ContentData), ("people", c8PeopleData)] "content" =
      dictGet [("content", c8ContentData)] "content" ∧
    format_prompt_with_context "P"
        [("content", c8ContentData), ("people", c8PeopleData)] none =
      format_prompt_with_context "P" [("content", c8ContentData)] none :=
  ⟨by decide,
    c8_context_only_content "P"
      [("content", c8ContentData), ("people", c8PeopleData)]
      [("content", c8ContentData)] none (by decide)⟩

/-! ## Claims C5 and C9: the retry loop -/

/-- Attempt i succeeds: the backend returns (rather than raises) and the
extractor recovers a truthy value from the response. -/
def attemptOk (oracle : Nat → GenResult) (i : Nat) : Bool :=
  match oracle i with
  | GenResult.raise _ => false
  | GenResult.resp raw =>
    match extract_json_from_response raw with
    | some v => pyTruthy v
    | none => false

/-- Complete characterization of the retry loop: it stops right after the
first successful attempt in its window, returning that attempt's parsed
data, and otherwise exhausts the window with an empty failed result. -/
theorem passLoop_spec (pt : String) (oracle : Nat → GenResult) (mr : Nat) :
    ∀ (remaining i : Nat) (lastRaw : Option String),
      ((passLoop pt oracle mr remaining i lastRaw).1.pass_type = pt) ∧
      (match (List.range' i remaining).find? (attemptOk oracle) with
       | some j =>
         (passLoop pt oracle mr remaining i lastRaw).1.success = true ∧
         (passLoop pt oracle mr remaining i lastRaw).2 = j + 1 ∧
         ∃ raw, oracle j = GenResult.resp raw ∧
           extract_json_from_response raw =
             some ((passLoop pt oracle mr remaining i lastRaw).1.data) ∧
           pyTruthy ((passLoop pt oracle mr remaining i lastRaw).1.data) = true
       | none =>
         (passLoop pt oracle mr remaining i lastRaw).1.success = false ∧
         (passLoop pt oracle mr remaining i lastRaw).2 = i + remaining ∧
         (passLoop pt oracle mr remaining i lastRaw).1.data = Json.obj [] ∧
         (passLoop pt oracle mr remaining i lastRaw).1.error =
           some ("Failed after " ++ toString (mr + 1) ++ " attempts")) := by
  intro remaining
  induction remaining with
  | zero =>
    intro i lastRaw
    refine ⟨rfl, ?_⟩
    simp [passLoop, List.range']
  | succ r ih =>
    intro i lastRaw
    have hrange : List.range' i (r + 1) = i :: List.range' (i + 1) r := by
      simp [List.range'_succ]
    cases horc : oracle i with
    | raise e =>
      have hno : attemptOk oracle i = false := by simp [attemptOk, horc]
      have hstep : passLoop pt oracle mr (r + 1) i lastRaw =
          passLoop pt oracle mr r (i + 1) lastRaw := by
        simp [passLoop, horc]
      rw [hstep, hrange]
      have := ih (i + 1) lastRaw
      refine ⟨this.1, ?_⟩
      simp only [List.find?, hno]
      have h2 := this.2
      cases hf : (List.range' (i + 1) r).find? (attemptOk oracle) with
      | some j =>
        rw [hf] at h2
        exact h2
      | none =>
        rw [hf] at h2
        exact ⟨h2.1, by rw [h2.2.1]; omega, h2.2.2⟩
    | resp raw =>
      cases hext : extract_json_from_response raw with
      | some v =>
        cases hv : pyTruthy v with
        | true =>
          have hyes : attemptOk oracle i = true := by simp [attemptOk, horc, hext, hv]
          have hstep : passLoop pt oracle mr (r + 1) i lastRaw =
              (⟨pt, true, v, none, if raw = "" then none else some (pyTake 500 raw)⟩, i + 1) := by
            simp [passLoop, horc, hext, hv]
          rw [hrange]
          simp only [List.find?, hyes]
          rw [hstep]
          exact ⟨rfl, rfl, rfl, raw, horc, by rw [hext], hv⟩
        | false =>
          have hno : attemptOk oracle i = false := by simp [attemptOk, horc, hext, hv]
          have hstep : passLoop pt oracle mr (r + 1) i lastRaw =
              passLoop pt oracle mr r (i + 1) (some raw) := by
            simp [passLoop, horc, hext, hv]
          rw [hstep, hrange]
          have := ih (i + 1) (some raw)
          refine ⟨this.1, ?_⟩
          simp only [List.find?, hno]
          have h2 := this.2
          cases hf : (List.range' (i + 1) r).find? (attemptOk oracle) with
          | some j =>
            rw [hf] at h2
            exact h2
          | none =>
            rw [hf] at h2
            exact ⟨h2.1, by rw [h2.2.1]; omega, h2.2.2⟩
      | none =>
        have hno : attemptOk oracle i = false := by simp [attemptOk, horc, hext]
        have hstep : passLoop pt oracle mr (r + 1) i lastRaw =
            passLoop pt oracle mr r (i + 1) (some raw) := by
          simp [passLoop, horc, hext]
        rw [hstep, hrange]
        have := ih (i + 1) (some raw)
        refine ⟨this.1, ?_⟩
        simp only [List.find?, hno]
        have h2 := this.2
        cases hf : (List.range' (i + 1) r).find? (attemptOk oracle) with
        | some j =>
          rw [hf] at h2
          exact h2
        | none =>
          rw [hf] at h2
          exact ⟨h2.1, by rw [h2.2.1]; omega, h2.2.2⟩

/-- C5 (theorem): the retry loop of _run_single_pass makes at most
max_retries+1 backend invocations; any attempt that is a backend error or
an unparseable/falsy response merely consumes an attempt; the first
successful attempt j ends the loop immediately after exactly j+1
invocations with success=true and the parsed data; when no attempt in the
window succeeds the loop ends with success=false after exactly
max_retries+1 invocations. -/
theorem c5_retry_semantics (oracle : Nat → GenResult) (mr : Nat) (pt : String) :
    (passLoop pt oracle mr (mr + 1) 0 none).2 ≤ mr + 1 ∧
    (∀ j, (List.range (mr + 1)).find? (attemptOk oracle) = some j →
        (passLoop pt oracle mr (mr + 1) 0 none).1.success = true ∧
        (passLoop pt oracle mr (mr + 1) 0 none).2 = j + 1 ∧
        ∃ raw, oracle j = GenResult.resp raw ∧
          extract_json_from_response raw =
            some ((passLoop pt oracle mr (mr + 1) 0 none).1.data)) ∧
    ((List.range (mr + 1)).find? (attemptOk oracle) = none →
        (passLoop pt oracle mr (mr + 1) 0 none).1.success = false ∧
        (passLoop pt oracle mr (mr + 1) 0 none).2 = mr + 1) := by
  have hs := (passLoop_spec pt oracle mr (mr + 1) 0 none).2
  rw [← List.range_eq_range'] at hs
  refine ⟨?_, ?_, ?_⟩
  · cases hf : (List.range (mr + 1)).find? (attemptOk oracle) with
    | some j =>
      rw [hf] at hs
      have hj := List.mem_range.mp (List.mem_of_find?_eq_some hf)
      rw [hs.2.1]
      omega
    | none =>
      rw [hf] at hs
      rw [hs.2.1]
      omega
  · intro j hj
    rw [hj] at hs
    obtain ⟨raw, h1, h2, -⟩ := hs.2.2
    exact ⟨hs.1, hs.2.1, raw, h1, h2⟩
  · intro hn
    rw [hn] at hs
    refine ⟨hs.1, ?_⟩
    rw [hs.2.1]
    omega

/-- The 2-failures-then-success backend used to witness C5: a raised
error, an unparseable response, then a parseable one. -/
def c5Oracle : Nat → GenResult
  | 0 => GenResult.raise "backend unavailable"
  | 1 => GenResult.resp "no json at all"
  | _ => GenResult.resp "\x7b\"tags\": [\"a\"]\x7d"

/-- C5 (witness): with max_retries = 2, one backend error followed by one
parse failure followed by one success yields success=true after exactly 3
attempts. -/
theorem c5_retry_semantics_witness :
    (List.range 3).find? (attemptOk c5Oracle) = some 2 ∧
    ((passLoop "content" c5Oracle 2 3 0 none).1.success = true ∧
     (passLoop "content" c5Oracle 2 3 0 none).2 = 2 + 1 ∧
     ∃ raw, c5Oracle 2 = GenResult.resp raw ∧
       extract_json_from_response raw =
         some ((passLoop "content" c5Oracle 2 3 0 none).1.data)) :=
  ⟨by decide, (c5_retry_semantics c5Oracle 2 "content").2.1 2 (by decide)⟩

/-- A backend whose responses never parse, used to exhaust the retry
loop. -/
def c9Oracle : Nat → GenResult := fun _ => GenResult.resp "not json"

/-- C9 (counterexample): after exhausting its attempts, _run_single_pass
returns an error message "Failed after 3 attempts" that names the attempt
count but not the pass: the pass name "content" does not occur in it. -/
theorem c9_counterexample :
    _run_single_pass false 2 "content" [] none c9Oracle =
      Except.ok (⟨"content", false, Json.obj [], some "Failed after 3 attempts",
        some "not json"⟩, 3) ∧
    hasInfix "Failed after 3 attempts".data "content".data = false :=
  ⟨by decide, by decide⟩

/-- C9 (amended): every PassResult returned by _run_single_pass satisfies:
success=true implies the data is truthy (non-empty) and is the extractor's
parse of some backend response from this run; success=false implies the
data is the empty dict and the error message names the attempt count
(max_retries+1); the pass identifier is carried in the result's pass_type
field rather than in the error message. -/
theorem c9_pass_result_invariant (ecc : Bool) (mr : Nat) (pt : String)
    (prev : List (String × Json)) (md : Option (List (String × Json)))
    (oracle : Nat → GenResult) (res : AnalysisResult) (n : Nat)
    (h : _run_single_pass ecc mr pt prev md oracle = Except.ok (res, n)) :
    res.pass_type = pt ∧
    (res.success = true →
       pyTruthy res.data = true ∧
       ∃ i raw, i < n ∧ oracle i = GenResult.resp raw ∧
         extract_json_from_response raw = some res.data) ∧
    (res.success = false →
       res.data = Json.obj [] ∧
       res.error = some ("Failed after " ++ toString (mr + 1) ++ " attempts")) := by
  unfold _run_single_pass at h
  simp only [exceptBind_ok] at h
  obtain ⟨p0, -, h⟩ := h
  have hloop : passLoop pt oracle mr (mr + 1) 0 none = (res, n) := by
    split at h <;>
      · simp only [exceptBind_ok] at h
        obtain ⟨pr, -, h⟩ := h
        simp only [exceptPure_ok] at h
        exact h
  have hs := passLoop_spec pt oracle mr (mr + 1) 0 none
  rw [hloop] at hs
  refine ⟨hs.1, ?_, ?_⟩
  · intro hsucc
    cases hf : (List.range' 0 (mr + 1)).find? (attemptOk oracle) with
    | some j =>
      have h2 := hs.2
      rw [hf] at h2
      obtain ⟨-, hn, raw, horc, hext, htr⟩ := h2
      exact ⟨htr, j, raw, by omega, horc, hext⟩
    | none =>
      have h2 := hs.2
      rw [hf] at h2
      rw [hsucc] at h2
      exact absurd h2.1 (by simp)
  · intro hfail
    cases hf : (List.range' 0 (mr + 1)).find? (attemptOk oracle) with
    | some j =>
      have h2 := hs.2
      rw [hf] at h2
      rw [hfail] at h2
      exact absurd h2.1 (by simp)
    | none =>
      have h2 := hs.2
      rw [hf] at h2
      exact ⟨h2.2.2.1, h2.2.2.2⟩

/-- A backend that always returns a parseable response, used to witness
the success side of C9. -/
def c9GoodOracle : Nat → GenResult := fun _ => GenResult.resp "\x7b\"ok\": true\x7d"

/-- The PassResult of a first-attempt success against c9GoodOracle. -/
def c9GoodRes : AnalysisResult :=
  ⟨"people", true, Json.obj [("ok", Json.bool true)], none, some "\x7b\"ok\": true\x7d"⟩

/-- C9 (witness): the invariant applied to a concrete successful run. -/
theorem c9_pass_result_invariant_witness :
    _run_single_pass false 2 "people" [] none c9GoodOracle =
      Except.ok (c9GoodRes, 1) ∧
    (c9GoodRes.pass_type = "people" ∧
     (c9GoodRes.success = true →
        pyTruthy c9GoodRes.data = true ∧
        ∃ i raw, i < 1 ∧ c9GoodOracle i = GenResult.resp raw ∧
          extract_json_from_response raw = some c9GoodRes.data) ∧
     (c9GoodRes.success = false →
        c9GoodRes.data = Json.obj [] ∧
        c9GoodRes.error = some ("Failed after " ++ toString (2 + 1) ++ " attempts"))) :=
  ⟨by decide,
    c9_pass_result_invariant false 2 "people" [] none c9GoodOracle c9GoodRes 1 (by decide)⟩

/-! ## Claims C4 and C10: the orchestrator -/

/-- A successful _run_single_pass call is exactly its retry loop. -/
theorem runSinglePass_ok (ecc : Bool) (mr : Nat) (pt : String)
    (prev : List (String × Json)) (md : Option (List (String × Json)))
    (oracle : Nat → GenResult) (res : AnalysisResult) (n : Nat)
    (h : _run_single_pass ecc mr pt prev md oracle = Except.ok (res, n)) :
    passLoop pt oracle mr (mr + 1) 0 none = (res, n) := by
  unfold _run_single_pass at h
  simp only [exceptBind_ok] at h
  obtain ⟨p0, -, h⟩ := h
  split at h <;>
    · simp only [exceptBind_ok] at h
      obtain ⟨pr, -, h⟩ := h
      simp only [exceptPure_ok] at h
      exact h

theorem runSinglePass_pass_type (ecc : Bool) (mr : Nat) (pt : String)
    (prev : List (String × Json)) (md : Option (List (String × Json)))
    (oracle : Nat → GenResult) (res : AnalysisResult) (n : Nat)
    (h : _run_single_pass ecc mr pt prev md oracle = Except.ok (res, n)) :
    res.pass_type = pt := by
  have hs := (passLoop_spec pt oracle mr (mr + 1) 0 none).1
  rw [runSinglePass_ok ecc mr pt prev md oracle res n h] at hs
  exact hs

theorem storePassData_fields (st : Session) (pt : String) (d : Json) :
    (storePassData st pt d).pass_results = st.pass_results ∧
    (storePassData st pt d).passes_completed = st.passes_completed ∧
    (storePassData st pt d).passes_failed = st.passes_failed ∧
    (storePassData st pt d).success = st.success := by
  unfold storePassData
  split_ifs <;> exact ⟨rfl, rfl, rfl, rfl⟩

/-- Exception-free bookkeeping of the comprehensive pass loop: every pass
in the list is attempted in order and appends one PassResult tagged with
its type, completed+failed grows by the number of passes, and the success
flag is untouched. -/
theorem compLoop_spec (ecc : Bool) (mr : Nat) (md : Option (List (String × Json)))
    (oracle : Nat → GenResult) :
    ∀ (ps : List String) (st : Session) (prev : List (String × Json)) (base : Nat),
      (compLoop ecc mr md oracle ps st prev base).2 = none →
      ((compLoop ecc mr md oracle ps st prev base).1.pass_results.map (fun r => r.pass_type) =
        st.pass_results.map (fun r => r.pass_type) ++ ps) ∧
      ((compLoop ecc mr md oracle ps st prev base).1.passes_completed +
          (compLoop ecc mr md oracle ps st prev base).1.passes_failed =
        st.passes_completed + st.passes_failed + ps.length) ∧
      ((compLoop ecc mr md oracle ps st prev base).1.success = st.success) := by
  intro ps
  induction ps with
  | nil =>
    intro st prev base h
    cases hcr : _combine_results prev with
    | error e =>
      rw [show compLoop ecc mr md oracle [] st prev base =
            (st, some e) by simp [compLoop, hcr]] at h
      cases h
    | ok c =>
      rw [show compLoop ecc mr md oracle [] st prev base =
            ({st with combined := c}, none) by simp [compLoop, hcr]]
      simp
  | cons pt rest ih =>
    intro st prev base h
    cases hrun : _run_single_pass ecc mr pt prev md (fun k => oracle (base + k)) with
    | error e =>
      rw [show compLoop ecc mr md oracle (pt :: rest) st prev base =
            (st, some e) by simp [compLoop, hrun]] at h
      cases h
    | ok rn =>
      obtain ⟨res, n⟩ := rn
      have hpt : res.pass_type = pt :=
        runSinglePass_pass_type ecc mr pt prev md (fun k => oracle (base + k)) res n hrun
      cases hsucc : res.success with
      | true =>
        have hstep : compLoop ecc mr md oracle (pt :: rest) st prev base =
            compLoop ecc mr md oracle rest
              (storePassData
                {st with pass_results := st.pass_results ++ [res],
                         passes_completed := st.passes_completed + 1}
                pt res.data)
              (prev ++ [(pt, res.data)]) (base + n) := by
          simp [compLoop, hrun, hsucc]
        rw [hstep] at h ⊢
        obtain ⟨hm, hc, hsu⟩ := ih _ _ _ h
        obtain ⟨f1, f2, f3, f4⟩ := storePassData_fields
          {st with pass_results := st.pass_results ++ [res],
                   passes_completed := st.passes_completed + 1} pt res.data
        rw [f1] at hm
        rw [f2, f3] at hc
        rw [f4] at hsu
        refine ⟨?_, ?_, hsu⟩
        · rw [hm]
          simp [hpt]
        · rw [hc]
          simp
          omega
      | false =>
        have hstep : compLoop ecc mr md oracle (pt :: rest) st prev base =
            compLoop ecc mr md oracle rest
              {st with pass_results := st.pass_results ++ [res],
                       passes_failed := st.passes_failed + 1,
                       errors := st.errors ++ passErrs pt res}
              prev (base + n) := by
          simp [compLoop, hrun, hsucc]
        rw [hstep] at h ⊢
        obtain ⟨hm, hc, hsu⟩ := ih _ _ _ h
        refine ⟨?_, ?_, hsu⟩
        · rw [hm]
          simp [hpt]
        · rw [hc]
          simp
          omega

/-- C4 (theorem): in every comprehensive-mode session that finishes
without an orchestration-level exception, all four passes (content,
people, quality, context) are attempted in order regardless of individual
pass failures, the final passes_completed + passes_failed equals 4, and
the session's success flag is true exactly when passes_completed > 0. -/
theorem c4_comprehensive_invariants (ecc : Bool) (mr : Nat)
    (prep : Except String String) (oracle : Nat → GenResult)
    (md : Option (List (String × Json)))
    (h : (analyzeCore false ecc mr prep oracle md).2 = none) :
    ((analyzeCore false ecc mr prep oracle md).1.pass_results.map (fun r => r.pass_type) =
      ["content", "people", "quality", "context"]) ∧
    ((analyzeCore false ecc mr prep oracle md).1.passes_completed +
       (analyzeCore false ecc mr prep oracle md).1.passes_failed = 4) ∧
    ((analyzeCore false ecc mr prep oracle md).1.success = true ↔
       0 < (analyzeCore false ecc mr prep oracle md).1.passes_completed) := by
  have hb2 : (analyzeBody false ecc mr prep oracle md).2 = none := h
  cases hprep : prep with
  | error e =>
    subst hprep
    simp [analyzeBody] at hb2
  | ok img =>
    subst hprep
    have hbody : analyzeBody false ecc mr (Except.ok img) oracle md =
        compLoop ecc mr md oracle get_comprehensive_passes initSession [] 0 := by
      simp [analyzeBody]
    rw [hbody] at hb2
    obtain ⟨hm, hc, hsu⟩ :=
      compLoop_spec ecc mr md oracle get_comprehensive_passes initSession [] 0 hb2
    have hcore : analyzeCore false ecc mr (Except.ok img) oracle md =
        analyzeFinalize (compLoop ecc mr md oracle get_comprehensive_passes initSession [] 0) := by
      unfold analyzeCore
      rw [hbody]
    have hfin : (analyzeCore false ecc mr (Except.ok img) oracle md).1 =
        (if (compLoop ecc mr md oracle get_comprehensive_passes initSession [] 0).1.passes_completed = 0
         then {(compLoop ecc mr md oracle get_comprehensive_passes initSession [] 0).1 with
                success := false}
         else (compLoop ecc mr md oracle get_comprehensive_passes initSession [] 0).1) := by
      rw [hcore]
      unfold analyzeFinalize
      rw [hb2]
    rw [hfin]
    by_cases hz :
        (compLoop ecc mr md oracle get_comprehensive_passes initSession [] 0).1.passes_completed = 0
    · rw [if_pos hz]
      refine ⟨?_, ?_, ?_⟩
      · simpa [initSession, get_comprehensive_passes] using hm
      · simpa [initSession, get_comprehensive_passes] using hc
      · simp [hz]
    · rw [if_neg hz]
      refine ⟨?_, ?_, ?_⟩
      · simpa [initSession, get_comprehensive_passes] using hm
      · simpa [initSession, get_comprehensive_passes] using hc
      · rw [hsu]
        constructor
        · intro _
          omega
        · intro _
          rfl

/-- A backend whose every response parses, used to witness C4. -/
def c4Oracle : Nat → GenResult := fun _ => GenResult.resp "\x7b\"a\": 1\x7d"

/-- C4 (witness): the invariants applied to a concrete exception-free
comprehensive run in which every pass succeeds on its first attempt. -/
theorem c4_comprehensive_invariants_witness :
    (analyzeCore false false 0 (Except.ok "img") c4Oracle none).2 = none ∧
    (((analyzeCore false false 0 (Except.ok "img") c4Oracle none).1.pass_results.map
        (fun r => r.pass_type) = ["content", "people", "quality", "context"]) ∧
     ((analyzeCore false false 0 (Except.ok "img") c4Oracle none).1.passes_completed +
        (analyzeCore false false 0 (Except.ok "img") c4Oracle none).1.passes_failed = 4) ∧
     ((analyzeCore false false 0 (Except.ok "img") c4Oracle none).1.success = true ↔
        0 < (analyzeCore false false 0 (Except.ok "img") c4Oracle none).1.passes_completed)) :=
  ⟨by decide,
    c4_comprehensive_invariants false 0 (Except.ok "img") c4Oracle none (by decide)⟩

/-- C10 (theorem): analyze always returns a completed session and never
raises; whenever an exception is caught at the orchestration level, the
returned session's success flag is false regardless of any prior pass
results, and the exception message is recorded in its error list. -/
theorem c10_orchestration_failure (quickMode ecc : Bool) (mr : Nat)
    (prep : Except String String) (oracle : Nat → GenResult)
    (md : Option (List (String × Json))) (m : String)
    (h : (analyzeCore quickMode ecc mr prep oracle md).2 = some m) :
    (analyze quickMode ecc mr prep oracle md).success = false ∧
    m ∈ (analyze quickMode ecc mr prep oracle md).errors := by
  have hb2 : (analyzeBody quickMode ecc mr prep oracle md).2 = some m := h
  unfold analyze analyzeCore analyzeFinalize
  rw [hb2]
  dsimp only
  split_ifs <;> simp

/-- C10 (witness): a failing image-payload preparation marks the session
failed and records the exception message. -/
theorem c10_orchestration_failure_witness :
    (analyzeCore false false 0 (Except.error "image decode failed") c4Oracle none).2 =
      some "image decode failed" ∧
    ((analyze false false 0 (Except.error "image decode failed") c4Oracle none).success = false ∧
     "image decode failed" ∈
       (analyze false false 0 (Except.error "image decode failed") c4Oracle none).errors) :=
  ⟨by decide,
    c10_orchestration_failure false false 0 (Except.error "image decode failed") c4Oracle none
      "image decode failed" (by decide)⟩

/-! ## Claim C3 -/

theorem pyRet_ne_null (w v : Json) (h : pyRet w = some v) : v ≠ Json.null := by
  cases w with
  | null => simp [pyRet] at h
  | bool b => simp [pyRet] at h; subst h; exact fun hv => Json.noConfusion hv
  | num q => simp [pyRet] at h; subst h; exact fun hv => Json.noConfusion hv
  | str s => simp [pyRet] at h; subst h; exact fun hv => Json.noConfusion hv
  | arr l => simp [pyRet] at h; subst h; exact fun hv => Json.noConfusion hv
  | obj l => simp [pyRet] at h; subst h; exact fun hv => Json.noConfusion hv

/-- Any value the extractor returns is a parsed JSON value other than
null (a parsed top-level null is returned as the Python None signal). -/
theorem extractFuel_ne_null : ∀ (f : Nat) (cs : List Char) (v : Json),
    extractFuel f cs = some v → v ≠ Json.null := by
  intro f
  induction f with
  | zero =>
    intro cs v h
    simp [extractFuel] at h
  | succ f ih =>
    intro cs v h
    unfold extractFuel at h
    by_cases hcs : cs = []
    · rw [if_pos hcs] at h
      cases h
    · rw [if_neg hcs] at h
      cases hld : pyJsonLoads (pyStrip cs) with
      | some w =>
        simp only [hld] at h
        exact pyRet_ne_null w v h
      | none =>
        simp only [hld] at h
        cases hfi : findBrace cs with
        | none =>
          simp [hfi] at h
        | some i =>
          simp only [hfi] at h
          cases hse : scanEnd (0, false, false) (cs.drop i) with
          | some n =>
            simp only [hse] at h
            cases hld2 : pyJsonLoads ((cs.drop i).take n) with
            | some w =>
              simp only [hld2] at h
              exact pyRet_ne_null w v h
            | none =>
              simp only [hld2] at h
              exact ih _ _ h
          | none =>
            simp only [hse] at h
            cases hsm : simpleMatch cs with
            | none =>
              simp [hsm] at h
            | some cand =>
              simp only [hsm] at h
              cases hld3 : pyJsonLoads cand with
              | some w =>
                simp only [hld3] at h
                exact pyRet_ne_null w v h
              | none =>
                simp [hld3] at h

/-- C3 (counterexample): the extractor's whole-text parse can return a
non-dict value: on "[1]" it returns a list and on "false" a boolean, so
its result type is not "dict or None" as the claim states. -/
theorem c3_counterexample :
    extract_json_from_response "[1]" = some (Json.arr [Json.int 1]) ∧
    isObjJ (Json.arr [Json.int 1]) = false ∧
    extract_json_from_response "false" = some (Json.bool false) := by decide

/-- C3 (amended): for every input string (empty, prose, or malformed),
extract_json_from_response returns either a parsed JSON value — not
necessarily a mapping, since the whole-text parse may yield a list,
number, string or boolean — or the failure signal None (also used for a
parsed top-level null), and never raises. -/
theorem c3_extract_total (t : String) :
    extract_json_from_response t = none ∨
    ∃ v, extract_json_from_response t = some v ∧ v ≠ Json.null := by
  cases hx : extract_json_from_response t with
  | none => exact Or.inl rfl
  | some v => exact Or.inr ⟨v, rfl, extractFuel_ne_null _ _ v hx⟩

/-! ## Claim C1: the balanced-brace scan finds exactly a valid object -/

/-- The scanner passes over pre from state s0 without its depth counter
ever returning to zero at a closing brace, ending in state s1. -/
def NT (s0 : Int × Bool × Bool) (pre : List Char) (s1 : Int × Bool × Bool) : Prop :=
  scanEnd s0 pre = none ∧ swalk s0 pre = s1

theorem NT_nil (s : Int × Bool × Bool) : NT s [] s :=
  ⟨rfl, rfl⟩

theorem NT_single (s : Int × Bool × Bool) (c : Char)
    (h : ¬ (¬ s.2.2 ∧ ¬ s.2.1 ∧ c = rbraceC ∧ s.1 - 1 = 0)) :
    NT s [c] (sstep s c) := by
  constructor
  · show scanEnd s [c] = none
    unfold scanEnd
    rw [if_neg h]
    rfl
  · simp [swalk]

theorem swalk_append (s : Int × Bool × Bool) (p q : List Char) :
    swalk s (p ++ q) = swalk (swalk s p) q := by
  simp [swalk, List.foldl_append]

theorem scanEnd_cons (s : Int × Bool × Bool) (c : Char) (cs : List Char) :
    scanEnd s (c :: cs) =
      (if ¬ s.2.2 ∧ ¬ s.2.1 ∧ c = rbraceC ∧ s.1 - 1 = 0 then some 1
       else (scanEnd (sstep s c) cs).map (· + 1)) := rfl

theorem scanEnd_append_none (s : Int × Bool × Bool) (p q : List Char)
    (h : scanEnd s p = none) :
    scanEnd s (p ++ q) = (scanEnd (swalk s p) q).map (· + p.length) := by
  induction p generalizing s with
  | nil =>
    simp only [List.nil_append, swalk, List.foldl_nil, List.length_nil]
    cases scanEnd s q <;> simp
  | cons c p ih =>
    by_cases ht : ¬ s.2.2 ∧ ¬ s.2.1 ∧ c = rbraceC ∧ s.1 - 1 = 0
    · rw [scanEnd_cons, if_pos ht] at h
      cases h
    · rw [scanEnd_cons, if_neg ht] at h
      have h0 : scanEnd (sstep s c) p = none := by
        cases hx : scanEnd (sstep s c) p with
        | none => rfl
        | some k => rw [hx] at h; simp at h
      rw [show ((c :: p) ++ q) = c :: (p ++ q) by rfl, scanEnd_cons, if_neg ht,
        ih (sstep s c) h0]
      rw [show swalk s (c :: p) = swalk (sstep s c) p by simp [swalk]]
      cases scanEnd (swalk (sstep s c) p) q with
      | none => simp
      | some k =>
        simp
        omega

theorem scanEnd_append_some (s : Int × Bool × Bool) (p q : List Char) (k : Nat)
    (h : scanEnd s p = some k) :
    scanEnd s (p ++ q) = some k := by
  induction p generalizing s k with
  | nil => simp [scanEnd] at h
  | cons c p ih =>
    by_cases ht : ¬ s.2.2 ∧ ¬ s.2.1 ∧ c = rbraceC ∧ s.1 - 1 = 0
    · rw [scanEnd_cons, if_pos ht] at h
      rw [show ((c :: p) ++ q) = c :: (p ++ q) by rfl, scanEnd_cons, if_pos ht]
      exact h
    · rw [scanEnd_cons, if_neg ht] at h
      cases hx : scanEnd (sstep s c) p with
      | none => rw [hx] at h; simp at h
      | some k0 =>
        rw [hx] at h
        simp at h
        rw [show ((c :: p) ++ q) = c :: (p ++ q) by rfl, scanEnd_cons, if_neg ht,
          ih (sstep s c) k0 hx]
        simp [h]

theorem NT_append (s0 s1 s2 : Int × Bool × Bool) (p q : List Char)
    (h1 : NT s0 p s1) (h2 : NT s1 q s2) : NT s0 (p ++ q) s2 := by
  obtain ⟨e1, w1⟩ := h1
  obtain ⟨e2, w2⟩ := h2
  constructor
  · rw [scanEnd_append_none s0 p q e1, w1, e2]
    rfl
  · rw [swalk_append, w1, w2]

/-- A character that the scanner treats as inert outside strings. -/
def inertChar (c : Char) : Prop := c ≠ dquoteC ∧ c ≠ lbraceC ∧ c ≠ rbraceC

theorem sstep_inert (d : Int) (c : Char) (h : inertChar c) :
    sstep (d, false, false) c = (d, false, false) := by
  obtain ⟨h1, h2, h3⟩ := h
  simp [sstep, h1, h2, h3]

theorem NT_inert_single (d : Int) (c : Char) (h : inertChar c) :
    NT (d, false, false) [c] (d, false, false) := by
  have := NT_single (d, false, false) c (by simp [h.2.2])
  rw [sstep_inert d c h] at this
  exact this

theorem NT_inert (pre : List Char) (h : ∀ c ∈ pre, inertChar c) (d : Int) :
    NT (d, false, false) pre (d, false, false) := by
  induction pre with
  | nil => exact NT_nil _
  | cons c p ih =>
    have hc := h c (by simp)
    have hp : ∀ x ∈ p, inertChar x := fun x hx => h x (by simp [hx])
    exact NT_append _ _ _ [c] p (NT_inert_single d c hc) (ih hp)

theorem isJsonWs_inert (c : Char) (h : isJsonWs c = true) : inertChar c := by
  simp only [isJsonWs, Bool.or_eq_true, decide_eq_true_eq] at h
  rcases h with ⟨rfl⟩ | ⟨rfl⟩ | ⟨rfl⟩ | ⟨rfl⟩ <;> exact ⟨by decide, by decide, by decide⟩

theorem numChar_inert (c : Char) (h : numChar c = true) : inertChar c := by
  simp only [numChar, Bool.or_eq_true, decide_eq_true_eq] at h
  rcases h with hd | ⟨rfl⟩ | ⟨rfl⟩ | ⟨rfl⟩ | ⟨rfl⟩ | ⟨rfl⟩
  · refine ⟨?_, ?_, ?_⟩ <;> rintro rfl <;> exact absurd hd (by decide)
  all_goals exact ⟨by decide, by decide, by decide⟩

theorem hexDigit_not_special (c : Char) (h : isHexDigitC c = true) :
    c ≠ dquoteC ∧ c ≠ bslashC := by
  refine ⟨?_, ?_⟩ <;> rintro rfl <;> exact absurd h (by decide)

/-- The whitespace skipped before a token is an inert prefix. -/
theorem skipWs_decomp (cs : List Char) :
    cs = cs.takeWhile isJsonWs ++ skipWs cs ∧
    ∀ d : Int, NT (d, false, false) (cs.takeWhile isJsonWs) (d, false, false) := by
  constructor
  · exact (List.takeWhile_append_dropWhile (p := isJsonWs) (l := cs)).symm
  · intro d
    exact NT_inert _ (fun c hc => isJsonWs_inert c (List.mem_takeWhile_imp hc)) d

/-- Prefixing an escape pair keeps the scan inside the string with no
trigger: the backslash sets escape-pending and the next character, whatever
it is, only clears it. -/
theorem NT_escape_pair (e : Char) (d : Int) :
    NT (d, true, false) [bslashC, e] (d, true, false) := by
  have h1 : NT (d, true, false) [bslashC] (d, true, true) := by
    have := NT_single (d, true, false) bslashC (by simp)
    simpa [sstep] using this
  have h2 : NT (d, true, true) [e] (d, true, false) := by
    have := NT_single (d, true, true) e (by simp)
    simpa [sstep] using this
  exact NT_append _ _ _ [bslashC] [e] h1 h2

/-- An in-string character other than a quote or backslash leaves the
scanner state unchanged. -/
theorem NT_instring_char (c : Char) (d : Int) (hq : c ≠ dquoteC) (hb : c ≠ bslashC) :
    NT (d, true, false) [c] (d, true, false) := by
  have := NT_single (d, true, false) c (by simp)
  simpa [sstep, hq, hb] using this

/-- Scanning the body of a valid string literal from inside-string state:
no trigger can fire, and the closing quote returns to the neutral
state. -/
theorem strNT : ∀ (cs out rest : List Char),
    parseStrChars cs = some (out, rest) →
    ∃ pre, cs = pre ++ rest ∧ ∀ d : Int, NT (d, true, false) pre (d, false, false)
  | [], out, rest => by
    intro h
    simp [parseStrChars] at h
  | c :: cs, out, rest => by
    intro h
    unfold parseStrChars at h
    by_cases hq : c = dquoteC
    · rw [if_pos hq] at h
      subst hq
      cases h
      refine ⟨[dquoteC], rfl, fun d => ?_⟩
      have hs := NT_single (d, true, false) dquoteC (by simp)
      simpa [sstep] using hs
    · rw [if_neg hq] at h
      by_cases hb : c = bslashC
      · rw [if_pos hb] at h
        subst hb
        rcases cs with - | ⟨e, cs2⟩
        · simp at h
        · dsimp only at h
          by_cases hu : e = 'u'
          · have hne1 : ¬ e = dquoteC := by rw [hu]; decide
            have hne2 : ¬ e = bslashC := by rw [hu]; decide
            have hne3 : ¬ e = '/' := by rw [hu]; decide
            have hne4 : ¬ e = 'b' := by rw [hu]; decide
            have hne5 : ¬ e = 'f' := by rw [hu]; decide
            have hne6 : ¬ e = 'n' := by rw [hu]; decide
            have hne7 : ¬ e = 'r' := by rw [hu]; decide
            have hne8 : ¬ e = 't' := by rw [hu]; decide
            rw [if_neg hne1, if_neg hne2, if_neg hne3, if_neg hne4, if_neg hne5,
              if_neg hne6, if_neg hne7, if_neg hne8, if_pos hu] at h
            subst hu
            rcases cs2 with - | ⟨h1, - | ⟨h2, - | ⟨h3, - | ⟨h4, cs3⟩⟩⟩⟩
            · simp at h
            · simp at h
            · simp at h
            · simp at h
            · dsimp only at h
              by_cases hhex : isHexDigitC h1 ∧ isHexDigitC h2 ∧ isHexDigitC h3 ∧ isHexDigitC h4
              · rw [if_pos hhex] at h
                cases hs3 : parseStrChars cs3 with
                | none => rw [hs3] at h; simp at h
                | some pr =>
                  obtain ⟨out3, rest3⟩ := pr
                  rw [hs3] at h
                  simp at h
                  obtain ⟨-, hrest⟩ := h
                  obtain ⟨pre3, hcs3, hnt3⟩ := strNT cs3 out3 rest3 hs3
                  subst hrest
                  refine ⟨bslashC :: 'u' :: h1 :: h2 :: h3 :: h4 :: pre3,
                    by simp [hcs3], fun d => ?_⟩
                  have hj : ∀ x, isHexDigitC x = true →
                      NT (d, true, false) [x] (d, true, false) := fun x hx =>
                    NT_instring_char x d (hexDigit_not_special x hx).1
                      (hexDigit_not_special x hx).2
                  refine NT_append _ _ _ [bslashC, 'u'] (h1 :: h2 :: h3 :: h4 :: pre3)
                    (NT_escape_pair 'u' d) ?_
                  refine NT_append _ _ _ [h1] (h2 :: h3 :: h4 :: pre3) (hj h1 hhex.1) ?_
                  refine NT_append _ _ _ [h2] (h3 :: h4 :: pre3) (hj h2 hhex.2.1) ?_
                  refine NT_append _ _ _ [h3] (h4 :: pre3) (hj h3 hhex.2.2.1) ?_
                  exact NT_append _ _ _ [h4] pre3 (hj h4 hhex.2.2.2) (hnt3 d)
              · rw [if_neg hhex] at h
                cases h
          · have main : ∀ (X : Char), (parseStrChars cs2).map
                  (fun p => (X :: p.1, p.2)) = some (out, rest) →
                ∃ pre, bslashC :: e :: cs2 = pre ++ rest ∧
                  ∀ d : Int, NT (d, true, false) pre (d, false, false) := by
              intro X hX
              cases hs2 : parseStrChars cs2 with
              | none => rw [hs2] at hX; simp at hX
              | some pr =>
                obtain ⟨out2, rest2⟩ := pr
                rw [hs2] at hX
                simp at hX
                obtain ⟨-, hrest⟩ := hX
                obtain ⟨pre2, hcs2, hnt2⟩ := strNT cs2 out2 rest2 hs2
                subst hrest
                refine ⟨bslashC :: e :: pre2, by simp [hcs2], fun d => ?_⟩
                exact NT_append _ _ _ [bslashC, e] pre2 (NT_escape_pair e d) (hnt2 d)
            by_cases he1 : e = dquoteC
            · rw [if_pos he1] at h
              exact main dquoteC h
            · rw [if_neg he1] at h
              by_cases he2 : e = bslashC
              · rw [if_pos he2] at h
                exact main bslashC h
              · rw [if_neg he2] at h
                by_cases he3 : e = '/'
                · rw [if_pos he3] at h
                  exact main '/' h
                · rw [if_neg he3] at h
                  by_cases he4 : e = 'b'
                  · rw [if_pos he4] at h
                    exact main (Char.ofNat 8) h
                  · rw [if_neg he4] at h
                    by_cases he5 : e = 'f'
                    · rw [if_pos he5] at h
                      exact main (Char.ofNat 12) h
                    · rw [if_neg he5] at h
                      by_cases he6 : e = 'n'
                      · rw [if_pos he6] at h
                        exact main (Char.ofNat 10) h
                      · rw [if_neg he6] at h
                        by_cases he7 : e = 'r'
                        · rw [if_pos he7] at h
                          exact main (Char.ofNat 13) h
                        · rw [if_neg he7] at h
                          by_cases he8 : e = 't'
                          · rw [if_pos he8] at h
                            exact main (Char.ofNat 9) h
                          · rw [if_neg he8, if_neg hu] at h
                            cases h
      · rw [if_neg hb] at h
        by_cases hc : 32 ≤ c.toNat
        · rw [if_pos hc] at h
          cases hs2 : parseStrChars cs with
          | none => rw [hs2] at h; simp at h
          | some pr =>
            obtain ⟨out2, rest2⟩ := pr
            rw [hs2] at h
            simp at h
            obtain ⟨-, hrest⟩ := h
            obtain ⟨pre2, hcs2, hnt2⟩ := strNT cs out2 rest2 hs2
            subst hrest
            refine ⟨c :: pre2, by simp [hcs2], fun d => ?_⟩
            exact NT_append _ _ _ [c] pre2 (NT_instring_char c d hq hb) (hnt2 d)
        · rw [if_neg hc] at h
          cases h

theorem sstep_open (d : Int) : sstep (d, false, false) lbraceC = (d + 1, false, false) := by
  have h1 : ¬ lbraceC = dquoteC := by decide
  simp [sstep, h1]

theorem sstep_close (d : Int) : sstep (d, false, false) rbraceC = (d - 1, false, false) := by
  have h1 : ¬ rbraceC = dquoteC := by decide
  have h2 : ¬ rbraceC = lbraceC := by decide
  simp [sstep, h1, h2]

theorem NT_open (d : Int) : NT (d, false, false) [lbraceC] (d + 1, false, false) := by
  have h := NT_single (d, false, false) lbraceC (by intro hx; exact absurd hx.2.2.1 (by decide))
  rw [sstep_open] at h
  exact h

theorem NT_close (d : Int) (hd : ¬ d = 0) :
    NT (d + 1, false, false) [rbraceC] (d, false, false) := by
  have h := NT_single (d + 1, false, false) rbraceC (by
    intro hx
    have := hx.2.2.2
    omega)
  rw [sstep_close] at h
  have e : (d : Int) + 1 - 1 = d := by omega
  rw [e] at h
  exact h

theorem NT_quote (d : Int) : NT (d, false, false) [dquoteC] (d, true, false) := by
  have h := NT_single (d, false, false) dquoteC (by intro hx; exact absurd hx.2.2.1 (by decide))
  simp only [sstep] at h
  simpa using h

theorem wsNT (cs : List Char) (d : Int) :
    NT (d, false, false) (cs.takeWhile isJsonWs) (d, false, false) :=
  (skipWs_decomp cs).2 d

mutual

/-- The characters a successful parseVal consumes never fire the scanner
trigger when scanned from a neutral state at depth at least 1, and leave
the scanner state unchanged. -/
theorem valNT : ∀ (f : Nat) (cs : List Char) (v : Json) (rest : List Char),
    parseVal f cs = some (v, rest) →
    ∃ pre, cs = pre ++ rest ∧
      ∀ d : Int, 1 ≤ d → NT (d, false, false) pre (d, false, false)
  | 0, cs, v, rest => by intro h; simp [parseVal] at h
  | f + 1, cs, v, rest => by
    intro h
    unfold parseVal at h
    rcases cs with - | ⟨c, r⟩
    · simp at h
    · dsimp only at h
      by_cases h1 : c = lbraceC
      · rw [if_pos h1] at h
        subst h1
        cases hsw : skipWs r with
        | nil => rw [hsw] at h; cases h
        | cons d2 r2 =>
          rw [hsw] at h
          dsimp only at h
          by_cases h2 : d2 = rbraceC
          · rw [if_pos h2] at h
            subst h2
            injection h with h
            injection h with hv hrest
            rw [hrest] at hsw
            refine ⟨lbraceC :: (r.takeWhile isJsonWs ++ [rbraceC]), ?_, ?_⟩
            · have hr : r = r.takeWhile isJsonWs ++ rbraceC :: rest := by
                conv_lhs => rw [(skipWs_decomp r).1, hsw]
              conv_lhs => rw [hr]
              simp
            · intro d hd
              refine NT_append _ _ _ [lbraceC] _ (NT_open d) ?_
              refine NT_append _ _ _ _ [rbraceC] (wsNT r (d + 1)) ?_
              exact NT_close d (by omega)
          · rw [if_neg h2] at h
            cases hm : parseMembers f (d2 :: r2) with
            | none => rw [hm] at h; simp at h
            | some q =>
              obtain ⟨kvs, r3⟩ := q
              rw [hm] at h
              simp at h
              obtain ⟨hv, hrest⟩ := h
              rw [hrest] at hm
              obtain ⟨mid, hmid, hmnt⟩ := membersNT f (d2 :: r2) kvs rest hm
              refine ⟨lbraceC :: (r.takeWhile isJsonWs ++ (mid ++ [rbraceC])), ?_, ?_⟩
              · have hr : r = r.takeWhile isJsonWs ++ (mid ++ rbraceC :: rest) := by
                  conv_lhs => rw [(skipWs_decomp r).1, hsw, hmid]
                conv_lhs => rw [hr]
                simp
              · intro d hd
                refine NT_append _ _ _ [lbraceC] _ (NT_open d) ?_
                refine NT_append _ _ _ _ _ (wsNT r (d + 1)) ?_
                refine NT_append _ _ _ mid [rbraceC] (hmnt (d + 1) (by omega)) ?_
                exact NT_close d (by omega)
      · rw [if_neg h1] at h
        by_cases h2 : c = lbrackC
        · rw [if_pos h2] at h
          subst h2
          cases hsw : skipWs r with
          | nil => rw [hsw] at h; cases h
          | cons d2 r2 =>
            rw [hsw] at h
            dsimp only at h
            by_cases h3 : d2 = rbrackC
            · rw [if_pos h3] at h
              subst h3
              injection h with h
              injection h with hv hrest
              rw [hrest] at hsw
              refine ⟨lbrackC :: (r.takeWhile isJsonWs ++ [rbrackC]), ?_, ?_⟩
              · have hr : r = r.takeWhile isJsonWs ++ rbrackC :: rest := by
                  conv_lhs => rw [(skipWs_decomp r).1, hsw]
                conv_lhs => rw [hr]
                simp
              · intro d hd
                refine NT_append _ _ _ [lbrackC] _
                  (NT_inert_single d lbrackC (by refine ⟨?_, ?_, ?_⟩ <;> decide)) ?_
                refine NT_append _ _ _ _ [rbrackC] (wsNT r d) ?_
                exact NT_inert_single d rbrackC (by refine ⟨?_, ?_, ?_⟩ <;> decide)
            · rw [if_neg h3] at h
              cases hi : parseItems f (d2 :: r2) with
              | none => rw [hi] at h; simp at h
              | some q =>
                obtain ⟨l, r3⟩ := q
                rw [hi] at h
                simp at h
                obtain ⟨hv, hrest⟩ := h
                rw [hrest] at hi
                obtain ⟨ipre, hipre, hint⟩ := itemsNT f (d2 :: r2) l rest hi
                refine ⟨lbrackC :: (r.takeWhile isJsonWs ++ ipre), ?_, ?_⟩
                · have hr : r = r.takeWhile isJsonWs ++ (ipre ++ rest) := by
                    conv_lhs => rw [(skipWs_decomp r).1, hsw, hipre]
                  conv_lhs => rw [hr]
                  simp
                · intro d hd
                  refine NT_append _ _ _ [lbrackC] _
                    (NT_inert_single d lbrackC (by refine ⟨?_, ?_, ?_⟩ <;> decide)) ?_
                  exact NT_append _ _ _ _ _ (wsNT r d) (hint d hd)
        · rw [if_neg h2] at h
          by_cases h3 : c = dquoteC
          · rw [if_pos h3] at h
            subst h3
            cases hps : parseStrChars r with
            | none => rw [hps] at h; simp at h
            | some p =>
              obtain ⟨out, r1⟩ := p
              rw [hps] at h
              simp at h
              obtain ⟨hv, hrest⟩ := h
              rw [hrest] at hps
              obtain ⟨spre, hspre, hsnt⟩ := strNT r out rest hps
              refine ⟨dquoteC :: spre, by simp [hspre], ?_⟩
              intro d hd
              exact NT_append _ _ _ [dquoteC] spre (NT_quote d) (hsnt d)
          · rw [if_neg h3] at h
            by_cases h4 : c = 't'
            · rw [if_pos h4] at h
              subst h4
              by_cases h5 : (['r', 'u', 'e'] : List Char).isPrefixOf r = true
              · rw [if_pos h5] at h
                injection h with h
                injection h with hv hrest
                obtain ⟨t, ht⟩ := List.isPrefixOf_iff_prefix.mp h5
                refine ⟨['t', 'r', 'u', 'e'], ?_, ?_⟩
                · rw [← hrest, ← ht]
                  simp
                · intro d hd
                  exact NT_inert _ (by intro c hc; fin_cases hc <;> exact ⟨by decide, by decide, by decide⟩) d
              · rw [if_neg h5] at h
                cases h
            · rw [if_neg h4] at h
              by_cases h5 : c = 'f'
              · rw [if_pos h5] at h
                subst h5
                by_cases h6 : (['a', 'l', 's', 'e'] : List Char).isPrefixOf r = true
                · rw [if_pos h6] at h
                  injection h with h
                  injection h with hv hrest
                  obtain ⟨t, ht⟩ := List.isPrefixOf_iff_prefix.mp h6
                  refine ⟨['f', 'a', 'l', 's', 'e'], ?_, ?_⟩
                  · rw [← hrest, ← ht]
                    simp
                  · intro d hd
                    exact NT_inert _ (by intro c hc; fin_cases hc <;> exact ⟨by decide, by decide, by decide⟩) d
                · rw [if_neg h6] at h
                  cases h
              · rw [if_neg h5] at h
                by_cases h6 : c = 'n'
                · rw [if_pos h6] at h
                  subst h6
                  by_cases h7 : (['u', 'l', 'l'] : List Char).isPrefixOf r = true
                  · rw [if_pos h7] at h
                    injection h with h
                    injection h with hv hrest
                    obtain ⟨t, ht⟩ := List.isPrefixOf_iff_prefix.mp h7
                    refine ⟨['n', 'u', 'l', 'l'], ?_, ?_⟩
                    · rw [← hrest, ← ht]
                      simp
                    · intro d hd
                      exact NT_inert _ (by intro c hc; fin_cases hc <;> exact ⟨by decide, by decide, by decide⟩) d
                  · rw [if_neg h7] at h
                    cases h
                · rw [if_neg h6] at h
                  by_cases h7 : c = '-' ∨ c.isDigit
                  · rw [if_pos h7] at h
                    cases hn : parseNumber (c :: r) with
                    | none => rw [hn] at h; simp at h
                    | some q =>
                      obtain ⟨dv, r1⟩ := q
                      rw [hn] at h
                      simp at h
                      obtain ⟨hv, hrest⟩ := h
                      unfold parseNumber at hn
                      cases hdt : decOfTok ((c :: r).takeWhile numChar) with
                      | none => rw [hdt] at hn; simp at hn
                      | some q2 =>
                        rw [hdt] at hn
                        simp at hn
                        obtain ⟨-, hr1⟩ := hn
                        refine ⟨(c :: r).takeWhile numChar, ?_, ?_⟩
                        · rw [← hrest, ← hr1]
                          exact
                            (List.takeWhile_append_dropWhile (p := numChar)
                              (l := c :: r)).symm
                        · intro d hd
                          exact NT_inert _
                            (fun x hx => numChar_inert x (List.mem_takeWhile_imp hx)) d
                  · rw [if_neg h7] at h
                    cases h

/-- The characters a successful parseMembers consumes form a trigger-free
segment followed by the object's closing brace. -/
theorem membersNT : ∀ (f : Nat) (cs : List Char) (kvs : List (String × Json))
    (rest : List Char),
    parseMembers f cs = some (kvs, rest) →
    ∃ mid, cs = mid ++ rbraceC :: rest ∧
      ∀ d : Int, 1 ≤ d → NT (d, false, false) mid (d, false, false)
  | 0, cs, kvs, rest => by intro h; simp [parseMembers] at h
  | f + 1, cs, kvs, rest => by
    intro h
    unfold parseMembers at h
    rcases cs with - | ⟨c, r⟩
    · simp at h
    · dsimp only at h
      by_cases h1 : c = dquoteC
      · rw [if_pos h1] at h
        subst h1
        cases hps : parseStrChars r with
        | none => rw [hps] at h; cases h
        | some p =>
          obtain ⟨k, r1⟩ := p
          rw [hps] at h
          dsimp only at h
          obtain ⟨spre, hspre, hsnt⟩ := strNT r k r1 hps
          cases hsw1 : skipWs r1 with
          | nil => rw [hsw1] at h; cases h
          | cons d1 r2 =>
            rw [hsw1] at h
            dsimp only at h
            by_cases h2 : d1 = ':'
            · rw [if_pos h2] at h
              subst h2
              cases hpv : parseVal f (skipWs r2) with
              | none => rw [hpv] at h; cases h
              | some q =>
                obtain ⟨v, r3⟩ := q
                rw [hpv] at h
                dsimp only at h
                obtain ⟨vpre, hvpre, hvnt⟩ := valNT f (skipWs r2) v r3 hpv
                cases hsw3 : skipWs r3 with
                | nil => rw [hsw3] at h; cases h
                | cons d2 r4 =>
                  rw [hsw3] at h
                  dsimp only at h
                  by_cases h3 : d2 = ','
                  · rw [if_pos h3] at h
                    subst h3
                    cases hpm : parseMembers f (skipWs r4) with
                    | none => rw [hpm] at h; simp at h
                    | some q2 =>
                      obtain ⟨kvs2, r5⟩ := q2
                      rw [hpm] at h
                      simp at h
                      obtain ⟨hkv, hrest⟩ := h
                      rw [hrest] at hpm
                      obtain ⟨mid2, hmid2, hmnt2⟩ := membersNT f (skipWs r4) kvs2 rest hpm
                      refine ⟨dquoteC :: (spre ++ (r1.takeWhile isJsonWs ++ (':' ::
                        (r2.takeWhile isJsonWs ++ (vpre ++ (r3.takeWhile isJsonWs ++
                        (',' :: (r4.takeWhile isJsonWs ++ mid2)))))))), ?_, ?_⟩
                      · have hr : r = spre ++ (r1.takeWhile isJsonWs ++ (':' ::
                            (r2.takeWhile isJsonWs ++ (vpre ++ (r3.takeWhile isJsonWs ++
                            (',' :: (r4.takeWhile isJsonWs ++
                              (mid2 ++ rbraceC :: rest)))))))) := by
                          conv_lhs => rw [hspre]
                          conv_lhs => rw [(skipWs_decomp r1).1, hsw1]
                          conv_lhs => rw [(skipWs_decomp r2).1, hvpre]
                          conv_lhs => rw [(skipWs_decomp r3).1, hsw3]
                          conv_lhs => rw [(skipWs_decomp r4).1, hmid2]
                        conv_lhs => rw [hr]
                        simp
                      · intro d hd
                        refine NT_append _ _ _ [dquoteC] _ (NT_quote d) ?_
                        refine NT_append _ _ _ spre _ (hsnt d) ?_
                        refine NT_append _ _ _ _ _ (wsNT r1 d) ?_
                        refine NT_append _ _ _ [':'] _
                          (NT_inert_single d ':' (by refine ⟨?_, ?_, ?_⟩ <;> decide)) ?_
                        refine NT_append _ _ _ _ _ (wsNT r2 d) ?_
                        refine NT_append _ _ _ vpre _ (hvnt d hd) ?_
                        refine NT_append _ _ _ _ _ (wsNT r3 d) ?_
                        refine NT_append _ _ _ [','] _
                          (NT_inert_single d ',' (by refine ⟨?_, ?_, ?_⟩ <;> decide)) ?_
                        exact NT_append _ _ _ _ _ (wsNT r4 d) (hmnt2 d hd)
                  · rw [if_neg h3] at h
                    by_cases h4 : d2 = rbraceC
                    · rw [if_pos h4] at h
                      subst h4
                      injection h with h
                      injection h with hkv hrest
                      rw [hrest] at hsw3
                      refine ⟨dquoteC :: (spre ++ (r1.takeWhile isJsonWs ++ (':' ::
                        (r2.takeWhile isJsonWs ++ (vpre ++ r3.takeWhile isJsonWs))))),
                        ?_, ?_⟩
                      · have hr : r = spre ++ (r1.takeWhile isJsonWs ++ (':' ::
                            (r2.takeWhile isJsonWs ++ (vpre ++ (r3.takeWhile isJsonWs ++
                              rbraceC :: rest))))) := by
                          conv_lhs => rw [hspre]
                          conv_lhs => rw [(skipWs_decomp r1).1, hsw1]
                          conv_lhs => rw [(skipWs_decomp r2).1, hvpre]
                          conv_lhs => rw [(skipWs_decomp r3).1, hsw3]
                        conv_lhs => rw [hr]
                        simp
                      · intro d hd
                        refine NT_append _ _ _ [dquoteC] _ (NT_quote d) ?_
                        refine NT_append _ _ _ spre _ (hsnt d) ?_
                        refine NT_append _ _ _ _ _ (wsNT r1 d) ?_
                        refine NT_append _ _ _ [':'] _
                          (NT_inert_single d ':' (by refine ⟨?_, ?_, ?_⟩ <;> decide)) ?_
                        refine NT_append _ _ _ _ _ (wsNT r2 d) ?_
                        exact NT_append _ _ _ vpre _ (hvnt d hd) (wsNT r3 d)
                    · rw [if_neg h4] at h
                      cases h
            · rw [if_neg h2] at h
              cases h
      · rw [if_neg h1] at h
        cases h

/-- The characters a successful parseItems consumes (closing bracket
included) form a trigger-free segment. -/
theorem itemsNT : ∀ (f : Nat) (cs : List Char) (l : List Json) (rest : List Char),
    parseItems f cs = some (l, rest) →
    ∃ pre, cs = pre ++ rest ∧
      ∀ d : Int, 1 ≤ d → NT (d, false, false) pre (d, false, false)
  | 0, cs, l, rest => by intro h; simp [parseItems] at h
  | f + 1, cs, l, rest => by
    intro h
    unfold parseItems at h
    cases hpv : parseVal f cs with
    | none => rw [hpv] at h; cases h
    | some q =>
      obtain ⟨v, r1⟩ := q
      rw [hpv] at h
      dsimp only at h
      obtain ⟨vpre, hvpre, hvnt⟩ := valNT f cs v r1 hpv
      cases hsw1 : skipWs r1 with
      | nil => rw [hsw1] at h; cases h
      | cons d1 r2 =>
        rw [hsw1] at h
        dsimp only at h
        by_cases h1 : d1 = ','
        · rw [if_pos h1] at h
          subst h1
          cases hpi : parseItems f (skipWs r2) with
          | none => rw [hpi] at h; simp at h
          | some q2 =>
            obtain ⟨l2, r3⟩ := q2
            rw [hpi] at h
            simp at h
            obtain ⟨hl, hrest⟩ := h
            rw [hrest] at hpi
            obtain ⟨ipre, hipre, hint⟩ := itemsNT f (skipWs r2) l2 rest hpi
            refine ⟨vpre ++ (r1.takeWhile isJsonWs ++ (',' ::
              (r2.takeWhile isJsonWs ++ ipre))), ?_, ?_⟩
            · have hr : cs = vpre ++ (r1.takeWhile isJsonWs ++ (',' ::
                  (r2.takeWhile isJsonWs ++ (ipre ++ rest)))) := by
                conv_lhs => rw [hvpre]
                conv_lhs => rw [(skipWs_decomp r1).1, hsw1]
                conv_lhs => rw [(skipWs_decomp r2).1, hipre]
              conv_lhs => rw [hr]
              simp
            · intro d hd
              refine NT_append _ _ _ vpre _ (hvnt d hd) ?_
              refine NT_append _ _ _ _ _ (wsNT r1 d) ?_
              refine NT_append _ _ _ [','] _
                (NT_inert_single d ',' (by refine ⟨?_, ?_, ?_⟩ <;> decide)) ?_
              exact NT_append _ _ _ _ _ (wsNT r2 d) (hint d hd)
        · rw [if_neg h1] at h
          by_cases h2 : d1 = rbrackC
          · rw [if_pos h2] at h
            subst h2
            injection h with h
            injection h with hl hrest
            rw [hrest] at hsw1
            refine ⟨vpre ++ (r1.takeWhile isJsonWs ++ [rbrackC]), ?_, ?_⟩
            · have hr : cs = vpre ++ (r1.takeWhile isJsonWs ++ rbrackC :: rest) := by
                conv_lhs => rw [hvpre]
                conv_lhs => rw [(skipWs_decomp r1).1, hsw1]
              conv_lhs => rw [hr]
              simp
            · intro d hd
              refine NT_append _ _ _ vpre _ (hvnt d hd) ?_
              refine NT_append _ _ _ _ [rbrackC] (wsNT r1 d) ?_
              exact NT_inert_single d rbrackC (by refine ⟨?_, ?_, ?_⟩ <;> decide)
          · rw [if_neg h2] at h
            cases h

end

/-- Scanning an opening brace, a trigger-free body and the matching closing
brace from depth 0 fires the trigger exactly at the closing brace. -/
theorem scanEnd_block (body : List Char)
    (hb : NT (1, false, false) body (1, false, false)) :
    scanEnd (0, false, false) (lbraceC :: (body ++ [rbraceC])) =
      some (body.length + 2) := by
  rw [scanEnd_cons, if_neg (by intro hx; exact absurd hx.2.2.1 (by decide))]
  rw [sstep_open]
  have e : ((0 : Int) + 1, false, false) = ((1 : Int), false, false) := by norm_num
  rw [e]
  rw [scanEnd_append_none _ _ _ hb.1, hb.2]
  have e2 : scanEnd ((1 : Int), false, false) [rbraceC] = some 1 := by decide
  rw [e2]
  simp
  omega

/-- A value that parses as an object and consumes the whole input starts
with an opening brace, and the Strategy 2 scan of that input fires exactly
at its last character. -/
theorem objScan (f : Nat) (s : List Char) (kvs : List (String × Json))
    (h : parseVal f s = some (Json.obj kvs, [])) :
    (∃ r, s = lbraceC :: r) ∧ scanEnd (0, false, false) s = some s.length := by
  match f with
  | 0 => simp [parseVal] at h
  | f + 1 =>
    unfold parseVal at h
    rcases s with - | ⟨c, r⟩
    · simp at h
    · dsimp only at h
      by_cases h1 : c = lbraceC
      · subst h1
        rw [if_pos rfl] at h
        refine ⟨⟨r, rfl⟩, ?_⟩
        cases hsw : skipWs r with
        | nil => rw [hsw] at h; cases h
        | cons d2 r2 =>
          rw [hsw] at h
          dsimp only at h
          by_cases h2 : d2 = rbraceC
          · rw [if_pos h2] at h
            subst h2
            injection h with h
            injection h with hv hrest
            rw [hrest] at hsw
            have hr : r = r.takeWhile isJsonWs ++ rbraceC :: ([] : List Char) := by
              conv_lhs => rw [(skipWs_decomp r).1, hsw]
            have hb := scanEnd_block (r.takeWhile isJsonWs) (wsNT r 1)
            rw [show lbraceC :: r = lbraceC :: (r.takeWhile isJsonWs ++ [rbraceC]) by
              conv_lhs => rw [hr]]
            rw [hb]
            refine congrArg some ?_
            simp only [List.length_cons, List.length_append, List.length_nil]
          · rw [if_neg h2] at h
            cases hm : parseMembers f (d2 :: r2) with
            | none => rw [hm] at h; simp at h
            | some q =>
              obtain ⟨kvs2, r3⟩ := q
              rw [hm] at h
              simp at h
              obtain ⟨hv, hrest⟩ := h
              rw [hrest] at hm
              obtain ⟨mid, hmid, hmnt⟩ := membersNT f (d2 :: r2) kvs2 [] hm
              have hr : r = r.takeWhile isJsonWs ++ (mid ++ [rbraceC]) := by
                conv_lhs => rw [(skipWs_decomp r).1, hsw, hmid]
              have hb := scanEnd_block (r.takeWhile isJsonWs ++ mid)
                (NT_append _ _ _ _ _ (wsNT r 1) (hmnt 1 le_rfl))
              rw [show lbraceC :: r =
                  lbraceC :: ((r.takeWhile isJsonWs ++ mid) ++ [rbraceC]) by
                conv_lhs => rw [hr]
                rw [List.append_assoc]]
              rw [hb]
              refine congrArg some ?_
              simp only [List.length_cons, List.length_append, List.length_nil]
      · exfalso
        rw [if_neg h1] at h
        by_cases h2 : c = lbrackC
        · rw [if_pos h2] at h
          cases hsw : skipWs r with
          | nil => rw [hsw] at h; cases h
          | cons d2 r2 =>
            rw [hsw] at h
            dsimp only at h
            by_cases h3 : d2 = rbrackC
            · rw [if_pos h3] at h
              injection h with h
              injection h with hv hrest
              cases hv
            · rw [if_neg h3] at h
              cases hi : parseItems f (d2 :: r2) with
              | none => rw [hi] at h; simp at h
              | some q => obtain ⟨l, r3⟩ := q; rw [hi] at h; simp at h
        · rw [if_neg h2] at h
          by_cases h3 : c = dquoteC
          · rw [if_pos h3] at h
            cases hps : parseStrChars r with
            | none => rw [hps] at h; simp at h
            | some p => obtain ⟨out, r1⟩ := p; rw [hps] at h; simp at h
          · rw [if_neg h3] at h
            by_cases h4 : c = 't'
            · rw [if_pos h4] at h
              by_cases h5 : (['r', 'u', 'e'] : List Char).isPrefixOf r = true
              · rw [if_pos h5] at h
                injection h with h
                injection h with hv hrest
                cases hv
              · rw [if_neg h5] at h; cases h
            · rw [if_neg h4] at h
              by_cases h5 : c = 'f'
              · rw [if_pos h5] at h
                by_cases h6 : (['a', 'l', 's', 'e'] : List Char).isPrefixOf r = true
                · rw [if_pos h6] at h
                  injection h with h
                  injection h with hv hrest
                  cases hv
                · rw [if_neg h6] at h; cases h
              · rw [if_neg h5] at h
                by_cases h6 : c = 'n'
                · rw [if_pos h6] at h
                  by_cases h7 : (['u', 'l', 'l'] : List Char).isPrefixOf r = true
                  · rw [if_pos h7] at h
                    injection h with h
                    injection h with hv hrest
                    cases hv
                  · rw [if_neg h7] at h; cases h
                · rw [if_neg h6] at h
                  by_cases h7 : c = '-' ∨ c.isDigit
                  · rw [if_pos h7] at h
                    cases hn : parseNumber (c :: r) with
                    | none => rw [hn] at h; simp at h
                    | some q => obtain ⟨dv, r1⟩ := q; rw [hn] at h; simp at h
                  · rw [if_neg h7] at h; cases h

/-- text.find returns the index right before the first opening brace. -/
theorem findBrace_append : ∀ (pre rest : List Char), (∀ c ∈ pre, c ≠ lbraceC) →
    findBrace (pre ++ lbraceC :: rest) = some pre.length
  | [], rest, h => by simp [findBrace]
  | c :: pre, rest, h => by
    have hc : ¬ c = lbraceC := h c (by simp)
    show findBrace (c :: (pre ++ lbraceC :: rest)) = some (pre.length + 1)
    unfold findBrace
    rw [if_neg hc, findBrace_append pre rest (fun x hx => h x (by simp [hx]))]
    rfl

def c1wPre : List Char := ['R', 'e', 's', 'u', 'l', 't', ':', ' ']

def c1wObj : List Char := [lbraceC, dquoteC, 'x', dquoteC, ':', ' ', '1', rbraceC]

def c1wPost : List Char := [' ', 'o', 'k']

/-- C1 (amended): when the input splits as prose, then one syntactically
valid JSON object, then arbitrary trailing text, with no opening brace in
the prose and the whole stripped text not itself valid JSON (so Strategy 1
fails), extract_json_from_response returns exactly that object's parsed
value: the scan of Strategy 2 fires precisely at the object's closing
brace. -/
theorem c1_extract_embedded (pre s post : List Char) (kvs : List (String × Json))
    (hpre : ∀ c ∈ pre, c ≠ lbraceC)
    (hs : parseVal (valFuel s) s = some (Json.obj kvs, []))
    (hwhole : pyJsonLoads (pyStrip (pre ++ s ++ post)) = none) :
    extract_json_from_response (String.mk (pre ++ s ++ post)) =
      some (Json.obj kvs) := by
  obtain ⟨⟨r, hsr⟩, hscan⟩ := objScan (valFuel s) s kvs hs
  have htext : ¬ (pre ++ s ++ post) = ([] : List Char) := by
    rw [hsr]; simp
  have hfb : findBrace (pre ++ s ++ post) = some pre.length := by
    have e : pre ++ s ++ post = pre ++ lbraceC :: (r ++ post) := by
      rw [hsr]; simp
    rw [e]
    exact findBrace_append pre (r ++ post) hpre
  have hdrop : (pre ++ s ++ post).drop pre.length = s ++ post := by
    rw [List.append_assoc]
    exact List.drop_left pre (s ++ post)
  have hscan2 : scanEnd (0, false, false) (s ++ post) = some s.length :=
    scanEnd_append_some _ _ _ _ hscan
  have hskip : skipWs s = s := by
    rw [hsr]
    show List.dropWhile isJsonWs (lbraceC :: r) = lbraceC :: r
    rw [List.dropWhile_cons]
    simp [show isJsonWs lbraceC = false by decide]
  have hload2 : pyJsonLoads s = some (Json.obj kvs) := by
    unfold pyJsonLoads
    rw [hskip, hs]
    rfl
  show extractFuel ((pre ++ s ++ post).length + 1) (pre ++ s ++ post) =
    some (Json.obj kvs)
  unfold extractFuel
  rw [if_neg htext, hwhole]
  dsimp only
  rw [hfb]
  dsimp only
  rw [hdrop, hscan2]
  dsimp only
  rw [List.take_left, hload2]
  rfl

/-- C1 witness: on "Result: \x7b\x22x\x22: 1\x7d ok" the extractor returns
the embedded object, by the amended theorem at this concrete input. -/
theorem c1_extract_embedded_witness :
    extract_json_from_response (String.mk (c1wPre ++ c1wObj ++ c1wPost)) =
      some (Json.obj [("x", Json.int 1)]) :=
  c1_extract_embedded c1wPre c1wObj c1wPost [("x", Json.int 1)]
    (by decide) (by decide) (by decide)

/-- An exact object occurrence in the text: the substring of length n
starting at index i parses completely as a JSON object. -/
def objSpanB (cs : List Char) (i n : Nat) : Bool :=
  match parseVal (valFuel ((cs.drop i).take n)) ((cs.drop i).take n) with
  | some (Json.obj _, []) => true
  | _ => false

/-- All object occurrences of a text, as (start, length) pairs. -/
def allObjSpans (cs : List Char) : List (Nat × Nat) :=
  (List.range (cs.length + 1)).flatMap (fun i =>
    ((List.range (cs.length + 1 - i)).filter (fun n => objSpanB cs i n)).map
      (fun n => (i, n)))

/-- Span a lies strictly inside span b. -/
def spanInside (a b : Nat × Nat) : Bool :=
  decide (b.1 ≤ a.1 ∧ a.1 + a.2 ≤ b.1 + b.2 ∧ ¬ a = b)

/-- The text "\x7b \x7b\x22a\x22: \x7b\x22b\x22: 2\x7d\x7d": a stray
opening brace, then a well-formed object with a nested inner object. -/
def c1cexText : List Char :=
  [lbraceC, ' ', lbraceC, dquoteC, 'a', dquoteC, ':', ' ',
   lbraceC, dquoteC, 'b', dquoteC, ':', ' ', '2', rbraceC, rbraceC]

/-- C1 (counterexample): the text holds exactly two object occurrences,
at (2, 15) and (8, 8); the second lies strictly inside the first, so the
text contains exactly one top-level valid JSON object, the one at (2, 15),
parsing to \x7b"a": \x7b"b": 2\x7d\x7d — yet extract_json_from_response
returns the inner \x7b"b": 2\x7d, not that object's value: the stray
brace makes the Strategy 2 scan run off the end, and the Strategy 3 regex
can only see the innermost object. -/
theorem c1_counterexample :
    allObjSpans c1cexText = [(2, 15), (8, 8)] ∧
    spanInside (8, 8) (2, 15) = true ∧
    spanInside (2, 15) (8, 8) = false ∧
    pyJsonLoads ((c1cexText.drop 2).take 15) =
      some (Json.obj [("a", Json.obj [("b", Json.int 2)])]) ∧
    extract_json_from_response (String.mk c1cexText) =
      some (Json.obj [("b", Json.int 2)]) ∧
    ¬ Json.obj [("b", Json.int 2)] =
      Json.obj [("a", Json.obj [("b", Json.int 2)])] := by
  refine ⟨?_, ?_, ?_, ?_, ?_, ?_⟩ <;> decide
